import Mathlib

/-!
# Verification of the football-game core (keyframe interpolation + game-state machine)

Shallow embedding of the core algorithms of the repository:

* the turn-based game-state machine (`updateGameState`, `updateGameStateFromReplay`,
  `switchPossession`, from `main.ts`),
* the keyframe interpolation engine (`expandKeyframes`, `lerpAngle`, … from
  `src/utils/interpolation.ts`),
* the waypoint-to-keyframe adapter (`ultraCompactToKeyframes` from
  `src/utils/ultraCompactAdapter.ts`),
* the ultra-compact codec (`encodeUltraCompact` / `decodeUltraCompact` from
  `ultraCompactEncoding.ts`).

JavaScript numbers are modelled as exact rationals (`ℚ`) where fractional values can
occur (clock seconds, coordinates, angles) and as `ℤ` where the program only ever
stores integers (yards, scores, downs, field position, ticks).  JavaScript strings
are modelled as `String` in the engine and as `List Char` inside the character-level
codec.  JavaScript `while` loops and base-36 digit recursions are modelled with an
explicit fuel argument large enough to never run out (lemmas below prove the fuel
suffices), so that every definition stays executable and structurally recursive.
-/

/-! ## Game-state machine (main.ts) -/

/-- Possession side; the source stores the strings `'home'` / `'away'`. -/
inductive Side where
  | home : Side
  | away : Side
deriving DecidableEq, Repr

/-- `possession === 'home' ? 'away' : 'home'` -/
def Side.other : Side → Side
  | Side.home => Side.away
  | Side.away => Side.home

/-- The mutable match state of `main.ts` (`gameState`). -/
structure GameState where
  down : ℤ
  yardsToGo : ℤ
  ballPosition : ℤ
  homeScore : ℤ
  awayScore : ℤ
  possession : Side
  quarter : ℤ
  timeRemaining : ℚ
deriving DecidableEq, Repr

/-- `resetGameState()` / the canonical initial state. -/
def initialGameState : GameState :=
  { down := 1, yardsToGo := 10, ballPosition := 50, homeScore := 0, awayScore := 0,
    possession := Side.home, quarter := 1, timeRemaining := 300 }

/-- `switchPossession(afterKickoff)` from `main.ts`: flip possession; after a kickoff
the ball is spotted at 25, on a turnover the field position is mirrored and clamped
to `[1, 99]`; always resets to 1st and 10. -/
def switchPossession (afterKickoff : Bool) (s : GameState) : GameState :=
  let s := { s with possession := s.possession.other }
  let s :=
    if afterKickoff then
      { s with ballPosition := 25 }
    else
      let s := { s with ballPosition := 100 - s.ballPosition }
      { s with ballPosition := max 1 (min 99 s.ballPosition) }
  { s with down := 1, yardsToGo := 10 }

/-- The part of `updateGameState` after the clock/quarter section (the manual
touchdown promotion and the outcome handling, lines 1028–1092 of `main.ts`).
The source reaches this code by falling through the quarter-transition `if`;
the early `return`s of the source are modelled by the `if`/`else` structure. -/
def updateGameStateCore (yardsGained : ℤ) (outcome : String) (s : GameState) : GameState :=
  let effectiveOutcome :=
    if 100 ≤ s.ballPosition + yardsGained ∧ outcome ≠ "interception" ∧
        outcome ≠ "turnover" ∧ outcome ≠ "incomplete" then
      "touchdown"
    else outcome
  if effectiveOutcome = "touchdown" then
    let s :=
      if s.possession = Side.home then { s with homeScore := s.homeScore + 7 }
      else { s with awayScore := s.awayScore + 7 }
    switchPossession true s
  else if effectiveOutcome = "interception" ∨ effectiveOutcome = "turnover" then
    switchPossession false s
  else
    let s := { s with ballPosition := s.ballPosition + yardsGained }
    let s := { s with ballPosition := max 1 (min 99 s.ballPosition) }
    if s.yardsToGo ≤ yardsGained then
      { s with down := 1, yardsToGo := 10 }
    else
      let s := { s with yardsToGo := s.yardsToGo - yardsGained, down := s.down + 1 }
      if 4 < s.down then switchPossession false s else s

/-- `updateGameState(yardsGained, outcome, timeElapsed)` from `main.ts`: deduct the
clock, handle quarter transitions (halftime kick-off when the new quarter is 3,
game over when time expires in quarter ≥ 4 — only that branch returns early),
then fall through to the outcome handling `updateGameStateCore`. -/
def updateGameState (yardsGained : ℤ) (outcome : String) (timeElapsed : ℚ)
    (s : GameState) : GameState :=
  let s := { s with timeRemaining := s.timeRemaining - timeElapsed }
  if s.timeRemaining ≤ 0 then
    if s.quarter < 4 then
      let s := { s with quarter := s.quarter + 1, timeRemaining := 300 }
      let s := if s.quarter = 3 then switchPossession true s else s
      updateGameStateCore yardsGained outcome s
    else
      { s with quarter := 5, timeRemaining := 0 }
  else
    updateGameStateCore yardsGained outcome s

/-- The clock/quarter section shared verbatim (up to inlining of
`switchPossession true`) by `updateGameState` and `updateGameStateFromReplay`:
deduct the clock and perform the quarter transition.  Note that in
`updateGameStateFromReplay` the game-over branch does *not* return early. -/
def clockPhase (timeElapsed : ℚ) (s : GameState) : GameState :=
  let s := { s with timeRemaining := s.timeRemaining - timeElapsed }
  if s.timeRemaining ≤ 0 then
    if s.quarter < 4 then
      let s := { s with quarter := s.quarter + 1, timeRemaining := 300 }
      if s.quarter = 3 then switchPossession true s else s
    else
      { s with quarter := 5, timeRemaining := 0 }
  else s

/-- The outcome handling of `updateGameStateFromReplay` (lines 1734–1775 of
`main.ts`).  Unlike `updateGameStateCore` there is no goal-line touchdown
promotion, and the turnover mirror `100 - ballPosition` is not clamped. -/
def updateGameStateFromReplayCore (yardsGained : ℤ) (outcome : String)
    (s : GameState) : GameState :=
  if outcome = "touchdown" then
    let s :=
      if s.possession = Side.home then { s with homeScore := s.homeScore + 7 }
      else { s with awayScore := s.awayScore + 7 }
    { s with possession := s.possession.other, ballPosition := 25, down := 1, yardsToGo := 10 }
  else if outcome = "interception" ∨ outcome = "turnover" then
    { s with
        possession := s.possession.other,
        ballPosition := 100 - s.ballPosition,
        down := 1,
        yardsToGo := 10 }
  else
    let s := { s with ballPosition := s.ballPosition + yardsGained }
    let s := { s with ballPosition := max 1 (min 99 s.ballPosition) }
    if s.yardsToGo ≤ yardsGained then
      { s with down := 1, yardsToGo := 10 }
    else
      let s := { s with yardsToGo := s.yardsToGo - yardsGained, down := s.down + 1 }
      if 4 < s.down then
        { s with
            possession := s.possession.other,
            ballPosition := 100 - s.ballPosition,
            down := 1,
            yardsToGo := 10 }
      else s

/-- `updateGameStateFromReplay(yardsGained, outcome, timeElapsed)` from `main.ts`:
same clock/quarter section as `updateGameState` (the halftime flip is inlined in
the source with exactly the mutations of `switchPossession(true)`), but the
game-over branch falls through, and the outcome handling has no goal-line
promotion. -/
def updateGameStateFromReplay (yardsGained : ℤ) (outcome : String) (timeElapsed : ℚ)
    (s : GameState) : GameState :=
  updateGameStateFromReplayCore yardsGained outcome (clockPhase timeElapsed s)

/-! ## Keyframe interpolation engine (src/utils/interpolation.ts) -/

/-- One `[id, x, z, rotation, animation]` tuple of a compressed keyframe. -/
structure KPlayer where
  id : String
  x : ℚ
  z : ℚ
  rot : ℚ
  anim : String
deriving DecidableEq, Repr

/-- `CompressedKeyframe`: tick, ball `[x, y, z]`, player tuples, optional events. -/
structure CompressedKeyframe where
  t : ℤ
  b : ℚ × ℚ × ℚ
  p : List KPlayer
  e : Option (List String)
deriving DecidableEq, Repr

/-- `CompressedSimulation` (only the fields the interpolation engine reads). -/
structure CompressedSimulation where
  outcome : String
  summary : String
  timeElapsed : Option ℚ
  keyframes : List CompressedKeyframe
deriving DecidableEq, Repr

/-- A fully interpolated player sample. -/
structure PlayerState where
  id : String
  x : ℚ
  z : ℚ
  rotation : ℚ
  animation : String
deriving DecidableEq, Repr

/-- One dense output frame (`SimulationFrame`); the engine always emits a zero
ball rotation. -/
structure SimulationFrame where
  tick : ℤ
  ball : ℚ × ℚ × ℚ
  ballRotation : ℚ × ℚ × ℚ
  players : List PlayerState
  events : List String
deriving DecidableEq, Repr

/-- `lerp(a, b, t) = a + (b - a) * t` -/
def lerp (a b t : ℚ) : ℚ := a + (b - a) * t

/-- `clamp01(t) = Math.max(0, Math.min(1, t))` -/
def clamp01 (t : ℚ) : ℚ := max 0 (min 1 t)

/-- Fuelled form of the loop `while (diff > 180) diff -= 360` of `lerpAngle`.
The fuel only bounds the number of iterations; `normDiffUp_spec` below proves the
fuel chosen in `normDiffUp` is always enough, so this computes exactly what the
source's loop computes. -/
def normDiffUpAux : ℕ → ℚ → ℚ
  | 0, d => d
  | fuel + 1, d => if 180 < d then normDiffUpAux fuel (d - 360) else d

/-- `while (diff > 180) diff -= 360` -/
def normDiffUp (d : ℚ) : ℚ := normDiffUpAux (⌈d / 360⌉.toNat + 1) d

/-- Fuelled form of the loop `while (diff < -180) diff += 360` of `lerpAngle`. -/
def normDiffDownAux : ℕ → ℚ → ℚ
  | 0, d => d
  | fuel + 1, d => if d < -180 then normDiffDownAux fuel (d + 360) else d

/-- `while (diff < -180) diff += 360` -/
def normDiffDown (d : ℚ) : ℚ := normDiffDownAux (⌈-d / 360⌉.toNat + 1) d

/-- The fully normalized angle difference used by `lerpAngle`: first the
`diff > 180` loop, then the `diff < -180` loop. -/
def normDiff (d : ℚ) : ℚ := normDiffDown (normDiffUp d)

/-- `lerpAngle(a, b, t)` from `interpolation.ts`: normalize `b - a` by the two
wrap-around loops, then `a + diff * t`. -/
def lerpAngle (a b t : ℚ) : ℚ := a + normDiff (b - a) * t

/-- `findPlayer(keyframe, playerId)`: first tuple with the given id. -/
def findPlayer (keyframe : CompressedKeyframe) (playerId : String) : Option KPlayer :=
  keyframe.p.find? (fun p => p.id = playerId)

/-- `getAllPlayerIds(keyframes)`: ids in first-occurrence order (JS `Set`
insertion order), deduplicated, then sorted (JS default `Array.sort`, which is
stable and lexicographic; modelled by a stable insertion sort). -/
def getAllPlayerIds (keyframes : List CompressedKeyframe) : List String :=
  ((keyframes.flatMap (fun kf => kf.p.map (·.id))).eraseDups).insertionSort (· ≤ ·)

/-- The `beforeIndex` scan of `findSurroundingKeyframes`: walk the list, remember
the index of the last keyframe with `t ≤ tick`, stop at the first larger one
(`i` is the index of the head of the remaining list, `acc` the result so far). -/
def beforeIndexLoop (tick : ℤ) : List CompressedKeyframe → ℕ → ℕ → ℕ
  | [], _, acc => acc
  | k :: rest, i, acc =>
    if k.t ≤ tick then beforeIndexLoop tick rest (i + 1) i else acc

/-- Fallback keyframe for (unreachable) out-of-bounds list accesses. -/
def defaultKF : CompressedKeyframe := { t := 0, b := (0, 0, 0), p := [], e := none }

/-- Result triple of `findSurroundingKeyframes`. -/
structure Surround where
  before : CompressedKeyframe
  after : CompressedKeyframe
  t : ℚ

/-- `findSurroundingKeyframes(keyframes, tick)` from `interpolation.ts`. -/
def findSurroundingKeyframes (keyframes : List CompressedKeyframe) (tick : ℤ) : Surround :=
  let beforeIndex := beforeIndexLoop tick keyframes 0 0
  let afterIndex := min (beforeIndex + 1) (keyframes.length - 1)
  let before := keyframes.getD beforeIndex defaultKF
  let after := keyframes.getD afterIndex defaultKF
  let t : ℚ :=
    if before.t ≠ after.t then ((tick : ℚ) - (before.t : ℚ)) / ((after.t : ℚ) - (before.t : ℚ))
    else 0
  ⟨before, after, clamp01 t⟩

/-- The interpolated player entry built inside the tick loop of
`expandKeyframes` (with `p0`/`p1` the `before`/`after` data after the
missing-side fallback). -/
def mkPlayerState (playerId : String) (p0 p1 : KPlayer) (t : ℚ) : PlayerState :=
  { id := playerId,
    x := lerp p0.x p1.x t,
    z := lerp p0.z p1.z t,
    rotation := lerpAngle p0.rot p1.rot t,
    animation := if t < 1/2 then p0.anim else p1.anim }

/-- The body of the per-tick loop of `expandKeyframes`: interpolate the ball,
interpolate every known actor present in at least one bracketing keyframe
(`p0 = playerBefore || playerAfter`, `p1 = playerAfter || playerBefore`), and
attach events only when the tick hits an input keyframe exactly. -/
def interpolateFrameAt (sortedKeyframes : List CompressedKeyframe) (tick : ℤ) : SimulationFrame :=
  let s := findSurroundingKeyframes sortedKeyframes tick
  let players := (getAllPlayerIds sortedKeyframes).filterMap (fun playerId =>
    match findPlayer s.before playerId, findPlayer s.after playerId with
    | none, none => none
    | some pb, none => some (mkPlayerState playerId pb pb s.t)
    | none, some pa => some (mkPlayerState playerId pa pa s.t)
    | some pb, some pa => some (mkPlayerState playerId pb pa s.t))
  let events :=
    match sortedKeyframes.find? (fun k => k.t = tick) with
    | some kf => kf.e.getD []
    | none => []
  { tick := tick,
    ball := (lerp s.before.b.1 s.after.b.1 s.t,
             lerp s.before.b.2.1 s.after.b.2.1 s.t,
             lerp s.before.b.2.2 s.after.b.2.2 s.t),
    ballRotation := (0, 0, 0),
    players := players,
    events := events }

/-- `decompressKeyframe(kf)`: the single-keyframe short-circuit of the engine. -/
def decompressKeyframe (kf : CompressedKeyframe) : SimulationFrame :=
  { tick := kf.t,
    ball := kf.b,
    ballRotation := (0, 0, 0),
    players := kf.p.map (fun p => { id := p.id, x := p.x, z := p.z, rotation := p.rot,
                                    animation := p.anim }),
    events := kf.e.getD [] }

/-- `expandKeyframes(compressed)` from `interpolation.ts`: empty input yields no
frames; the keyframes are stabilized by a stable sort on tick; a single keyframe
short-circuits; otherwise one frame is emitted for every integer tick from the
first to the last sorted tick. -/
def expandKeyframes (compressed : CompressedSimulation) : List SimulationFrame :=
  if compressed.keyframes.isEmpty then []
  else
    let sortedKeyframes := compressed.keyframes.insertionSort (fun a b => a.t ≤ b.t)
    match sortedKeyframes with
    | [] => []
    | [kf] => [decompressKeyframe kf]
    | kf₀ :: rest =>
      let startTick := kf₀.t
      let endTick := ((kf₀ :: rest).getLast?.getD defaultKF).t
      (List.range (endTick - startTick + 1).toNat).map
        (fun (k : ℕ) => interpolateFrameAt (kf₀ :: rest) (startTick + (k : ℤ)))

/-! ## Waypoint-to-keyframe adapter (src/utils/ultraCompactAdapter.ts) -/

/-- One waypoint `{x, z, rotation, animation}` of an actor's path. -/
structure Waypoint where
  x : ℚ
  z : ℚ
  rotation : ℚ
  animation : String
deriving DecidableEq, Repr

/-- One `{id, waypoints}` entry of `playerPaths`. -/
structure PlayerPath where
  id : String
  waypoints : List Waypoint
deriving DecidableEq, Repr

/-- The `UltraCompactResponse` input of the adapter. -/
structure UltraCompactResponse where
  outcome : String
  yardsGained : ℚ
  timeElapsed : ℚ
  summary : String
  ballPath : List (ℚ × ℚ × ℚ)
  playerPaths : List PlayerPath
  events : List String
deriving DecidableEq, Repr

/-- Fallback waypoint for the (unreachable in the claims) out-of-bounds
`waypoints[waypointIndex]` access the source would perform on an empty
waypoint list. -/
def defaultWaypoint : Waypoint := { x := 0, z := 0, rotation := 0, animation := "undefined" }

/-- The per-player waypoint selection of keyframe `i` in
`ultraCompactToKeyframes`: an actor with exactly one waypoint is clamped to
index 0, otherwise `min(round(i/(numKeyframes-1) * (waypoints.length-1)), waypoints.length-1)`. -/
def waypointIndexFor (numKeyframes : ℕ) (i : ℕ) (waypointCount : ℕ) : ℤ :=
  if waypointCount = 1 then 0
  else
    min (round (((i : ℚ) / ((numKeyframes : ℚ) - 1)) * ((waypointCount : ℚ) - 1)))
      ((waypointCount : ℤ) - 1)

/-- The keyframe built for loop index `i` of `ultraCompactToKeyframes`. -/
def ultraCompactKeyframeAt (data : UltraCompactResponse) (totalTicks : ℤ) (i : ℕ) :
    CompressedKeyframe :=
  let numKeyframes := data.ballPath.length
  let t : ℤ :=
    if i = 0 then 0
    else round (((i : ℚ) / ((numKeyframes : ℚ) - 1)) * (totalTicks : ℚ))
  let ballPos := data.ballPath.getD i (0, 0, 0)
  let players := data.playerPaths.map (fun playerPath =>
    let waypointIndex := waypointIndexFor numKeyframes i playerPath.waypoints.length
    let waypoint := playerPath.waypoints.getD waypointIndex.toNat defaultWaypoint
    { id := playerPath.id, x := waypoint.x, z := waypoint.z, rot := waypoint.rotation,
      anim := waypoint.animation : KPlayer })
  { t := t, b := ballPos, p := players,
    e := if i = 0 then some data.events else none }

/-- `ultraCompactToKeyframes(data)` from `ultraCompactAdapter.ts`: speed the play
up by 25% (`adjustedTime = timeElapsed * 0.75`), convert to ticks at 10 ticks per
second (`totalTicks = round(adjustedTime * 10)`, with JavaScript's
`Math.round x = ⌊x + 1/2⌋`), and emit one keyframe per ball waypoint, evenly
distributed over `[0, totalTicks]`. -/
def ultraCompactToKeyframes (data : UltraCompactResponse) : CompressedSimulation :=
  let adjustedTime := data.timeElapsed * (3/4)
  let totalTicks : ℤ := round (adjustedTime * 10)
  let numKeyframes := data.ballPath.length
  { outcome := data.outcome,
    summary := data.summary,
    timeElapsed := some adjustedTime,
    keyframes := (List.range numKeyframes).map (ultraCompactKeyframeAt data totalTicks) }

/-! ## Ultra-compact codec (ultraCompactEncoding.ts)

JavaScript strings are modelled as `List Char`; `String.prototype.split` with a
one-character separator is `jsSplitOn`, `Array.prototype.join` is `jsJoin`.  `Number.prototype.toString(36)` / `parseInt(·, 36)` are
modelled digit-by-digit.  `Math.PI` is the exact rational value of the IEEE-754
double the source computes with.  The `none` results of the decoders model the
code paths where the JavaScript source would throw or produce `NaN`/`undefined`
garbage (malformed inputs); no theorem below evaluates those branches. -/

/-- The digit characters of `Number.prototype.toString(36)`: `0`–`9`, `a`–`z`. -/
def digitChar36 (d : ℕ) : Char :=
  if d < 10 then Char.ofNat (48 + d) else Char.ofNat (87 + d)

/-- Fuelled digit recursion of `Number.prototype.toString(36)` for non-negative
integers; `toBase36Nat` supplies fuel `n + 1`, which `toBase36NatAux_eq` proves
sufficient. -/
def toBase36NatAux : ℕ → ℕ → List Char
  | 0, _ => []
  | fuel + 1, n =>
    if n < 36 then [digitChar36 n]
    else toBase36NatAux fuel (n / 36) ++ [digitChar36 (n % 36)]

/-- `n.toString(36)` for a natural number. -/
def toBase36Nat (n : ℕ) : List Char := toBase36NatAux (n + 1) n

/-- `i.toString(36)` for an integer (a leading `-` for negative values). -/
def toBase36Int (i : ℤ) : List Char :=
  if i < 0 then '-' :: toBase36Nat i.natAbs else toBase36Nat i.toNat

/-- The numeric value of one base-36 digit accepted by `parseInt(·, 36)`
(case-insensitive). -/
def digitVal36 (c : Char) : Option ℕ :=
  if '0' ≤ c ∧ c ≤ '9' then some (c.toNat - 48)
  else if 'a' ≤ c ∧ c ≤ 'z' then some (c.toNat - 87)
  else if 'A' ≤ c ∧ c ≤ 'Z' then some (c.toNat - 55)
  else none

/-- The digit-consuming loop of `parseInt(·, 36)`: consume digits until the
first invalid character, ignoring the rest. -/
def parseRun36 (acc : ℕ) : List Char → ℕ
  | [] => acc
  | c :: rest =>
    match digitVal36 c with
    | some d => parseRun36 (acc * 36 + d) rest
    | none => acc

/-- `parseInt(s, 36)` on an unsigned string: `none` models `NaN` (no leading
digit). -/
def parseNat36 (s : List Char) : Option ℕ :=
  match s with
  | [] => none
  | c :: rest =>
    match digitVal36 c with
    | some d => some (parseRun36 d rest)
    | none => none

/-- `parseInt(s, 36)` with an optional sign (the codec's strings never carry
leading whitespace, so the whitespace-skipping of `parseInt` is vacuous). -/
def jsParseInt36 (s : List Char) : Option ℤ :=
  match s with
  | '-' :: rest => (parseNat36 rest).map (fun n => -(n : ℤ))
  | '+' :: rest => (parseNat36 rest).map (fun n => (n : ℤ))
  | _ => (parseNat36 s).map (fun n => (n : ℤ))

/-- `String.prototype.split(sep)` for a one-character separator:
`"".split(sep) = [""]`, adjacent separators produce empty segments. -/
def jsSplitOn (sep : Char) : List Char → List (List Char)
  | [] => [[]]
  | c :: rest =>
    match jsSplitOn sep rest with
    | [] => [[]]
    | seg :: segs => if c = sep then [] :: seg :: segs else (c :: seg) :: segs

/-- `Array.prototype.join(sep)` for a one-character separator. -/
def jsJoin (sep : Char) : List (List Char) → List Char
  | [] => []
  | [x] => x
  | x :: y :: xs => x ++ sep :: jsJoin sep (y :: xs)

/-- JavaScript truncating division used by the `%` operator. -/
def jsTrunc (q : ℚ) : ℤ := if 0 ≤ q then ⌊q⌋ else ⌈q⌉

/-- JavaScript remainder `x % m` (sign follows the dividend). -/
def jsMod (x m : ℚ) : ℚ := x - m * (jsTrunc (x / m) : ℚ)

/-- The exact rational value of the IEEE-754 double `Math.PI`. -/
def jsPI : ℚ := 884279719003555 / 281474976710656

/-- `encodeCoord(n)`: one-decimal fixed point, offset by 10000, in base 36. -/
def encodeCoord (n : ℚ) : List Char := toBase36Int (round (n * 10) + 10000)

/-- `decodeCoord(s)`. -/
def decodeCoord (s : List Char) : Option ℚ :=
  (jsParseInt36 s).map (fun (offset : ℤ) => ((offset : ℚ) - 10000) / 10)

/-- `encodeRotation(rad)`: radians → degrees, normalized into `[0, 360)`,
rounded, in base 36. -/
def encodeRotation (rad : ℚ) : List Char :=
  let deg := jsMod (rad * 180 / jsPI) 360
  let deg := if deg < 0 then deg + 360 else deg
  toBase36Int (round deg)

/-- `decodeRotation(s)`: degrees back to radians. -/
def decodeRotation (s : List Char) : Option ℚ :=
  (jsParseInt36 s).map (fun (deg : ℤ) => (deg : ℚ) * jsPI / 180)

/-- `ANIM_CODES[animation] || 'i'`. -/
def animCode (animation : String) : Char :=
  if animation = "idle" then 'i'
  else if animation = "sprint" then 's'
  else if animation = "backpedal" then 'b'
  else if animation = "throw" then 't'
  else if animation = "catch" then 'c'
  else if animation = "tackle" then 'k'
  else if animation = "fall" then 'f'
  else if animation = "block" then 'l'
  else 'i'

/-- `ANIM_DECODE[a] || 'idle'` (the lookup key is the whole split segment). -/
def animDecode (s : List Char) : String :=
  if s = ['i'] then "idle"
  else if s = ['s'] then "sprint"
  else if s = ['b'] then "backpedal"
  else if s = ['t'] then "throw"
  else if s = ['c'] then "catch"
  else if s = ['k'] then "tackle"
  else if s = ['f'] then "fall"
  else if s = ['l'] then "block"
  else "idle"

/-- `OUTCOME_CODES[outcome]`; a JavaScript template literal renders the
`undefined` of an unknown outcome as the string `"undefined"`. -/
def outcomeCodeStr (outcome : String) : List Char :=
  if outcome = "touchdown" then ['T']
  else if outcome = "tackle" then ['K']
  else if outcome = "incomplete" then ['I']
  else if outcome = "interception" then ['X']
  else if outcome = "turnover" then ['F']
  else "undefined".data

/-- `OUTCOME_DECODE[c]`. -/
def outcomeDecode (c : Char) : Option String :=
  if c = 'T' then some "touchdown"
  else if c = 'K' then some "tackle"
  else if c = 'I' then some "incomplete"
  else if c = 'X' then some "interception"
  else if c = 'F' then some "turnover"
  else none

/-- The structured data consumed by `encodeUltraCompact` and produced by
`decodeUltraCompact`. -/
structure UltraCompactData where
  outcome : String
  summary : String
  timeElapsed : ℚ
  ballPath : List (ℚ × ℚ × ℚ)
  playerPaths : List PlayerPath
  events : List String
deriving DecidableEq, Repr

/-- `encodeWaypoint(w) = "x,z,r,a"`. -/
def encodeWaypoint (w : Waypoint) : List Char :=
  encodeCoord w.x ++ ',' ::
    (encodeCoord w.z ++ ',' :: (encodeRotation w.rotation ++ [',', animCode w.animation]))

/-- `decodeWaypoint(s)`: destructure the first four comma-separated segments. -/
def decodeWaypoint (s : List Char) : Option Waypoint :=
  match jsSplitOn ',' s with
  | x :: z :: r :: a :: _ =>
    match decodeCoord x, decodeCoord z, decodeRotation r with
    | some xv, some zv, some rv =>
      some { x := xv, z := zv, rotation := rv, animation := animDecode a }
    | _, _, _ => none
  | _ => none

/-- `encodePlayerPath(id, waypoints) = "id:w1>w2>…"`. -/
def encodePlayerPath (p : PlayerPath) : List Char :=
  p.id.data ++ ':' :: jsJoin '>' (p.waypoints.map encodeWaypoint)

/-- `decodePlayerPath(s)`: split off the id at the first `:`, then decode the
`>`-separated waypoints. -/
def decodePlayerPath (s : List Char) : Option PlayerPath :=
  match jsSplitOn ':' s with
  | id :: pathStr :: _ =>
    ((jsSplitOn '>' pathStr).mapM decodeWaypoint).map
      (fun ws => { id := String.mk id, waypoints := ws })
  | _ => none

/-- `encodeBallPath(points)`: `>`-separated `x,y,z` triples. -/
def encodeBallPoint (p : ℚ × ℚ × ℚ) : List Char :=
  encodeCoord p.1 ++ ',' :: (encodeCoord p.2.1 ++ ',' :: encodeCoord p.2.2)

/-- `encodeBallPath(points)`. -/
def encodeBallPath (points : List (ℚ × ℚ × ℚ)) : List Char :=
  jsJoin '>' (points.map encodeBallPoint)

/-- `decodeBallPath(s)`. -/
def decodeBallPath (s : List Char) : Option (List (ℚ × ℚ × ℚ)) :=
  (jsSplitOn '>' s).mapM (fun point =>
    match jsSplitOn ',' point with
    | x :: y :: z :: _ =>
      match decodeCoord x, decodeCoord y, decodeCoord z with
      | some xv, some yv, some zv => some (xv, yv, zv)
      | _, _, _ => none
    | _ => none)

/-- `encodeUltraCompact(data)`: `meta|ball|players|events|summary` with
`meta = outcomeCode + duration` and the duration stored as base-36 deciseconds. -/
def encodeUltraCompact (data : UltraCompactData) : List Char :=
  let meta := outcomeCodeStr data.outcome ++ toBase36Int (round (data.timeElapsed * 10))
  let ball := encodeBallPath data.ballPath
  let players := jsJoin ';' (data.playerPaths.map encodePlayerPath)
  let events := jsJoin ',' (data.events.map (·.data))
  meta ++ '|' :: (ball ++ '|' :: (players ++ '|' :: (events ++ '|' :: data.summary.data)))

/-- `decodeUltraCompact(encoded)`: split on `|`, re-join any extra parts into the
summary, parse the meta head, and decode each section. -/
def decodeUltraCompact (encoded : List Char) : Option UltraCompactData :=
  let parts := jsSplitOn '|' encoded
  if parts.length < 4 then none
  else
    match parts with
    | meta :: ball :: players :: events :: summaryParts =>
      match meta with
      | [] => none
      | outcomeChar :: durationChars =>
        match outcomeDecode outcomeChar, jsParseInt36 durationChars with
        | some outcome, some duration =>
          match decodeBallPath ball, (jsSplitOn ';' players).mapM decodePlayerPath with
          | some ballPath, some playerPaths =>
            some { outcome := outcome,
                   summary := String.mk (jsJoin '|' summaryParts),
                   timeElapsed := (duration : ℚ) / 10,
                   ballPath := ballPath,
                   playerPaths := playerPaths,
                   events :=
                     if events.isEmpty then []
                     else (jsSplitOn ',' events).map String.mk }
          | _, _ => none
        | _, _ => none
    | _ => none

/-- The degree value `encodeRotation` rounds: radians → degrees via the exact
`Math.PI` double, JavaScript-`%`-normalized into `[0, 360)`. -/
def jsDeg (rad : ℚ) : ℚ :=
  let deg := jsMod (rad * 180 / jsPI) 360
  if deg < 0 then deg + 360 else deg

/-- The exact coordinate value produced by one `encodeCoord`/`decodeCoord`
round trip: one-decimal quantization. -/
def qCoord (x : ℚ) : ℚ := (round (x * 10) : ℚ) / 10

/-- The exact rotation value produced by one `encodeRotation`/`decodeRotation`
round trip: whole-degree quantization of the `[0, 360)`-normalized angle. -/
def qRot (r : ℚ) : ℚ := (round (jsDeg r) : ℚ) * jsPI / 180

/-- Fallback frame for out-of-bounds list reads in concrete statements. -/
def defaultFrame : SimulationFrame :=
  { tick := 0, ball := (0, 0, 0), ballRotation := (0, 0, 0), players := [], events := [] }

/-- Concrete two-keyframe sample (ticks 3 and 5) for witnesses. -/
def sampleSim35 : CompressedSimulation :=
  { outcome := "tackle", summary := "s", timeElapsed := none,
    keyframes := [⟨3, (0, 0, 0), [], none⟩, ⟨5, (0, 0, 0), [], none⟩] }

/-- Concrete sample whose actor `"a"` appears only in the first keyframe. -/
def sampleSimA : CompressedSimulation :=
  { outcome := "tackle", summary := "s", timeElapsed := none,
    keyframes := [⟨0, (0, 0, 0), [⟨"a", 1, 2, 3, "idle"⟩], none⟩,
                  ⟨2, (0, 0, 0), [], none⟩] }

/-- Concrete waypoint-form sample for the adapter witness. -/
def sampleUC : UltraCompactResponse :=
  { outcome := "tackle", yardsGained := 3, timeElapsed := 2, summary := "s",
    ballPath := [(0, 0, 0), (1, 1, 1)],
    playerPaths := [⟨"o1", [⟨4, 5, 6, "idle"⟩]⟩],
    events := ["snap"] }

/-- The waypoint value produced by one encode/decode round trip: quantized
coordinates and rotation, animation re-canonicalized through the code tables. -/
def quantWaypoint (w : Waypoint) : Waypoint :=
  { x := qCoord w.x, z := qCoord w.z, rotation := qRot w.rotation,
    animation := animDecode [animCode w.animation] }

/-- Fallback player path for out-of-bounds list reads in statements. -/
def defaultPlayerPath : PlayerPath := { id := "", waypoints := [] }
/-- Concrete waypoint-form play whose single event contains the `,` delimiter. -/
def cexPlay : UltraCompactData :=
  { outcome := "tackle", summary := "s", timeElapsed := 1,
    ballPath := [(0, 0, 0), (1, 1, 1)],
    playerPaths := [⟨"o1", [⟨0, 0, 0, "idle"⟩]⟩],
    events := ["a,b"] }
/-- Concrete well-formed waypoint-form play for the codec witness. -/
def samplePlay : UltraCompactData :=
  { outcome := "touchdown", summary := "run", timeElapsed := 2,
    ballPath := [(0, 0, 0), (10, 1, 5)],
    playerPaths := [⟨"o1", [⟨1, 2, 3, "sprint"⟩, ⟨4, 5, 6, "idle"⟩]⟩],
    events := ["snap"] }

theorem updateGameStateCore_eq_replayCore (y : ℤ) (o : String) (s : GameState)
    (hb1 : 1 ≤ s.ballPosition) (hb2 : s.ballPosition ≤ 99)
    (hp : s.ballPosition + y < 100 ∨ o = "touchdown" ∨ o = "interception" ∨
      o = "turnover" ∨ o = "incomplete") :
    updateGameStateCore y o s = updateGameStateFromReplayCore y o s := by
  obtain ⟨d, ytg, bp, hs, as_, pos, q, tr⟩ := s
  simp only [GameState.ballPosition] at hb1 hb2 hp
  by_cases h1 : o = "touchdown"
  · subst h1
    simp only [updateGameStateCore, updateGameStateFromReplayCore, switchPossession, ite_self]
    cases pos <;> simp [Side.other]
  · by_cases h2 : o = "interception"
    · subst h2
      simp only [updateGameStateCore, updateGameStateFromReplayCore, switchPossession]
      simp only [show ¬(100 ≤ bp + y ∧ ("interception":String) ≠ "interception" ∧
        ("interception":String) ≠ "turnover" ∧ ("interception":String) ≠ "incomplete") by simp,
        if_neg, if_false]
      simp [GameState.mk.injEq]
      omega
    · by_cases h3 : o = "turnover"
      · subst h3
        simp only [updateGameStateCore, updateGameStateFromReplayCore, switchPossession]
        simp only [show ¬(100 ≤ bp + y ∧ ("turnover":String) ≠ "interception" ∧
          ("turnover":String) ≠ "turnover" ∧ ("turnover":String) ≠ "incomplete") by simp,
          if_neg, if_false]
        simp [GameState.mk.injEq]
        omega
      · -- o is not touchdown/interception/turnover: the promotion must not fire
        have hC : ¬(100 ≤ bp + y ∧ o ≠ "interception" ∧ o ≠ "turnover" ∧ o ≠ "incomplete") := by
          rcases hp with hp | hp | hp | hp | hp
          · intro h; omega
          · exact absurd hp h1
          · exact absurd hp h2
          · exact absurd hp h3
          · subst hp; simp
        simp only [updateGameStateCore, updateGameStateFromReplayCore, switchPossession,
          if_neg hC]
        simp only [if_neg h1, if_neg (show ¬(o = "interception" ∨ o = "turnover") by tauto)]
        split_ifs <;> simp only [GameState.mk.injEq, max_def, min_def] <;>
          split_ifs <;> simp_all <;> omega

theorem clockPhase_ballPosition (t : ℚ) (s : GameState) :
    (clockPhase t s).ballPosition = s.ballPosition ∨ (clockPhase t s).ballPosition = 25 := by
  obtain ⟨d, ytg, bp, hs, as_, pos, q, tr⟩ := s
  simp only [clockPhase, switchPossession]
  split_ifs <;> simp

theorem updateGameState_eq_core_clockPhase (y : ℤ) (o : String) (t : ℚ) (s : GameState)
    (hend : s.timeRemaining - t ≤ 0 → s.quarter < 4) :
    updateGameState y o t s = updateGameStateCore y o (clockPhase t s) := by
  obtain ⟨d, ytg, bp, hs, as_, pos, q, tr⟩ := s
  simp only [GameState.timeRemaining, GameState.quarter] at hend
  simp only [updateGameState, clockPhase]
  split_ifs with h1 h2 h3
  · rfl
  · rfl
  · exact absurd (hend h1) h2
  · rfl

/-- C1 (amended): the live transition `updateGameState` and the replay transition
`updateGameStateFromReplay` produce the same `MatchState` on every state with
`ballPosition ∈ [1, 99]` and every play on which neither divergence of the two
implementations fires: the play must not trigger the quarter-≥-4 game-over path
(where the live function stops early but the replay function still applies the
play), and the live function's goal-line promotion must not change the outcome
(the replay function has no such promotion).  Replaying a log of such plays from
the canonical initial state therefore reproduces the live-tracked state at every
prefix; the unamended claim is refuted by `updateGameState_replay_agree_cex`. -/
theorem updateGameState_replay_agree (y : ℤ) (o : String) (t : ℚ) (s : GameState)
    (hb : 1 ≤ s.ballPosition ∧ s.ballPosition ≤ 99)
    (hend : s.timeRemaining - t ≤ 0 → s.quarter < 4)
    (hp : (clockPhase t s).ballPosition + y < 100 ∨ o = "touchdown" ∨ o = "interception" ∨
      o = "turnover" ∨ o = "incomplete") :
    updateGameState y o t s = updateGameStateFromReplay y o t s := by
  rw [updateGameState_eq_core_clockPhase y o t s hend, updateGameStateFromReplay]
  rcases clockPhase_ballPosition t s with h | h
  · exact updateGameStateCore_eq_replayCore y o _ (h ▸ hb.1) (h ▸ hb.2) hp
  · exact updateGameStateCore_eq_replayCore y o _ (by omega) (by omega) hp

/-- C2 (amended): when the clock decrement exhausts quarter 2, `updateGameState`
increments the quarter to 3, resets the clock to 300, flips possession, spots
the ball at 25 with down 1 and 10 to go — and then *continues* with the play:
the remainder of the transition (`updateGameStateCore`, including the play's
outcome and yards) is applied to the flipped state rather than skipped.  Only
the restore loop of `restoreGameFromHistory` skips the play (`continue`); the
claim as stated is refuted by `halftime_flip_then_play_cex`. -/
theorem halftime_flip_then_play (y : ℤ) (o : String) (t : ℚ) (s : GameState)
    (hq : s.quarter = 2) (hexp : s.timeRemaining - t ≤ 0) :
    updateGameState y o t s =
      updateGameStateCore y o
        ⟨1, 10, 25, s.homeScore, s.awayScore, s.possession.other, 3, 300⟩ := by
  obtain ⟨d, ytg, bp, hs, as_, pos, q, tr⟩ := s
  simp only [GameState.quarter] at hq
  simp only [GameState.timeRemaining] at hexp
  subst hq
  simp only [updateGameState, switchPossession]
  rw [if_pos (by exact hexp), if_pos (by norm_num)]
  norm_num

/-- C2 (counterexample): from quarter 2 with 10 seconds left, a 5-yard tackle
taking 15 seconds does *not* end in the pure halftime state (ball 25, down 1,
10 to go): the play is applied after the flip, leaving ball 30, down 2, 5 to
go.  So the transition does not "skip the rest" as claimed. -/
theorem halftime_flip_then_play_cex :
    updateGameState 5 "tackle" 15 ⟨1, 10, 50, 0, 0, Side.home, 2, 10⟩ ≠
      ⟨1, 10, 25, 0, 0, Side.away, 3, 300⟩ ∧
    updateGameState 5 "tackle" 15 ⟨1, 10, 50, 0, 0, Side.home, 2, 10⟩ =
      ⟨2, 5, 30, 0, 0, Side.away, 3, 300⟩ := by
  constructor <;>
    · norm_num [updateGameState, updateGameStateCore, switchPossession]
      decide

/-- C3 (amended): on any state whose clock does not expire on this play, if
`ballPosition + yardsGained ≥ 100` and the outcome is none of interception /
turnover / incomplete, `updateGameState` behaves exactly as if the outcome were
touchdown: +7 to the possessor, possession flips, ball 25, down 1, 10 to go.
The unamended claim (quantifying over all non-terminal states, including plays
on which the clock expires) is refuted by `goalline_forced_touchdown_cex`:
after a halftime flip the promotion check runs on the post-kickoff ball
position 25, and after a quarter-4 expiry the play is dropped entirely. -/
theorem goalline_forced_touchdown (y : ℤ) (o : String) (t : ℚ) (s : GameState)
    (hclock : 0 < s.timeRemaining - t)
    (hcross : 100 ≤ s.ballPosition + y)
    (h1 : o ≠ "interception") (h2 : o ≠ "turnover") (h3 : o ≠ "incomplete") :
    updateGameState y o t s = updateGameState y "touchdown" t s ∧
    updateGameState y o t s =
      ⟨1, 10, 25,
        s.homeScore + (if s.possession = Side.home then 7 else 0),
        s.awayScore + (if s.possession = Side.home then 0 else 7),
        s.possession.other, s.quarter, s.timeRemaining - t⟩ := by
  obtain ⟨d, ytg, bp, hs, as_, pos, q, tr⟩ := s
  simp only [GameState.timeRemaining, GameState.ballPosition, GameState.possession,
    GameState.homeScore, GameState.awayScore, GameState.quarter] at *
  have hnot : ¬(tr - t ≤ 0) := by linarith
  have hC : 100 ≤ bp + y ∧ o ≠ "interception" ∧ o ≠ "turnover" ∧ o ≠ "incomplete" :=
    ⟨hcross, h1, h2, h3⟩
  have hC' : 100 ≤ bp + y ∧ ("touchdown" : String) ≠ "interception" ∧
      ("touchdown" : String) ≠ "turnover" ∧ ("touchdown" : String) ≠ "incomplete" :=
    ⟨hcross, by decide, by decide, by decide⟩
  refine ⟨?_, ?_⟩
  · simp only [updateGameState, if_neg hnot, updateGameStateCore, if_pos hC, if_pos hC']
  · simp only [updateGameState, if_neg hnot, updateGameStateCore, if_pos hC, switchPossession]
    cases pos <;> simp [Side.other]

/-- C3 (counterexample): a non-terminal state (quarter 2, 10 seconds left) with
ball at 95, a 10-yard gain (95 + 10 ≥ 100) and outcome `"tackle"`: the clock
expires first, the halftime flip spots the ball at 25, the promotion check sees
25 + 10 < 100, and no touchdown is awarded — the possessor's score does not
increase by 7 as the claim requires. -/
theorem goalline_forced_touchdown_cex :
    (100 : ℤ) ≤ 95 + 10 ∧ (2 : ℤ) ≠ 5 ∧
    updateGameState 10 "tackle" 15 ⟨1, 10, 95, 0, 0, Side.home, 2, 10⟩ =
      ⟨1, 10, 35, 0, 0, Side.away, 3, 300⟩ ∧
    (updateGameState 10 "tackle" 15 ⟨1, 10, 95, 0, 0, Side.home, 2, 10⟩).homeScore ≠ 0 + 7 := by
  refine ⟨by norm_num, by norm_num, ?_, ?_⟩ <;>
    · norm_num [updateGameState, updateGameStateCore, switchPossession]
      decide

/-- C9 (confirmed): quarter 5 is absorbing — with `quarter = 5`,
`timeRemaining = 0` and any `elapsedSeconds ≥ 0` the transition returns the
state unchanged; and whenever time expires with `quarter ≥ 4` the transition
sets `quarter = 5`, `timeRemaining = 0` and changes nothing else. -/
theorem quarter5_terminal (y : ℤ) (o : String) (e : ℚ) (s : GameState) :
    (s.quarter = 5 → s.timeRemaining = 0 → 0 ≤ e → updateGameState y o e s = s) ∧
    (4 ≤ s.quarter → s.timeRemaining - e ≤ 0 →
      updateGameState y o e s = { s with quarter := 5, timeRemaining := 0 }) := by
  obtain ⟨d, ytg, bp, hs, as_, pos, q, tr⟩ := s
  simp only [GameState.quarter, GameState.timeRemaining]
  constructor
  · intro hq htr he
    subst hq; subst htr
    simp only [updateGameState]
    rw [if_pos (by linarith), if_neg (by norm_num)]
  · intro hq htr
    simp only [updateGameState]
    rw [if_pos (by exact htr), if_neg (by omega)]

theorem switchPossession_ballPosition_mem (b : Bool) (s : GameState) :
    1 ≤ (switchPossession b s).ballPosition ∧ (switchPossession b s).ballPosition ≤ 99 := by
  obtain ⟨d, ytg, bp, hs, as_, pos, q, tr⟩ := s
  cases b <;> simp [switchPossession]

theorem updateGameStateCore_ballPosition_mem (y : ℤ) (o : String) (s : GameState) :
    1 ≤ (updateGameStateCore y o s).ballPosition ∧
      (updateGameStateCore y o s).ballPosition ≤ 99 := by
  obtain ⟨d, ytg, bp, hs, as_, pos, q, tr⟩ := s
  simp only [updateGameStateCore]
  split_ifs <;>
    first
      | exact switchPossession_ballPosition_mem _ _
      | simp [switchPossession]

theorem replayCore_ballPosition_mem (y : ℤ) (o : String) (s : GameState)
    (hb1 : 1 ≤ s.ballPosition) (hb2 : s.ballPosition ≤ 99) :
    1 ≤ (updateGameStateFromReplayCore y o s).ballPosition ∧
      (updateGameStateFromReplayCore y o s).ballPosition ≤ 99 := by
  obtain ⟨d, ytg, bp, hs, as_, pos, q, tr⟩ := s
  simp only [GameState.ballPosition] at hb1 hb2
  simp only [updateGameStateFromReplayCore]
  split_ifs <;> simp <;> omega

/-- C10 (confirmed): from any state with `ballPosition ∈ [1, 99]`, both the
live transition `updateGameState` and the replay transition
`updateGameStateFromReplay` produce a state with `ballPosition ∈ [1, 99]`
again, for every integer `yardsGained` and every outcome string: normal plays
clamp after adding yards, turnover mirrors are (or stay) in range, and kickoff
resets spot the ball at 25. -/
theorem ballPosition_invariant (y : ℤ) (o : String) (t : ℚ) (s : GameState)
    (hb1 : 1 ≤ s.ballPosition) (hb2 : s.ballPosition ≤ 99) :
    (1 ≤ (updateGameState y o t s).ballPosition ∧
      (updateGameState y o t s).ballPosition ≤ 99) ∧
    (1 ≤ (updateGameStateFromReplay y o t s).ballPosition ∧
      (updateGameStateFromReplay y o t s).ballPosition ≤ 99) := by
  constructor
  · obtain ⟨d, ytg, bp, hs, as_, pos, q, tr⟩ := s
    simp only [GameState.ballPosition] at hb1 hb2
    simp only [updateGameState]
    split_ifs
    · exact updateGameStateCore_ballPosition_mem _ _ _
    · exact updateGameStateCore_ballPosition_mem _ _ _
    · simp only [GameState.ballPosition]; omega
    · exact updateGameStateCore_ballPosition_mem _ _ _
  · rw [updateGameStateFromReplay]
    rcases clockPhase_ballPosition t s with h | h
    · exact replayCore_ballPosition_mem y o _ (by omega) (by omega)
    · exact replayCore_ballPosition_mem y o _ (by omega) (by omega)

/-- C1 (counterexample): the two transition implementations are *not* equal as
functions.  One play from the canonical initial state — a one-entry play log —
with `yardsGained = 50`, `outcome = "tackle"`, `timeElapsed = 15` makes the live
function promote the outcome to a touchdown (50 + 50 ≥ 100), scoring 7 and
kicking off, while the replay function plays a plain first down to the 99. -/
theorem updateGameState_replay_agree_cex :
    updateGameState 50 "tackle" 15 initialGameState ≠
      updateGameStateFromReplay 50 "tackle" 15 initialGameState := by
  norm_num [updateGameState, updateGameStateCore, switchPossession, initialGameState,
    updateGameStateFromReplay, updateGameStateFromReplayCore, clockPhase]
  decide

theorem updateGameState_replay_agree_witness :
    (1 ≤ initialGameState.ballPosition ∧ initialGameState.ballPosition ≤ 99) ∧
    (initialGameState.timeRemaining - 15 ≤ 0 → initialGameState.quarter < 4) ∧
    ((clockPhase 15 initialGameState).ballPosition + 3 < 100) ∧
    updateGameState 3 "tackle" 15 initialGameState =
      updateGameStateFromReplay 3 "tackle" 15 initialGameState :=
  ⟨⟨by norm_num [initialGameState], by norm_num [initialGameState]⟩,
   by norm_num [initialGameState],
   by norm_num [clockPhase, initialGameState],
   updateGameState_replay_agree 3 "tackle" 15 initialGameState
     ⟨by norm_num [initialGameState], by norm_num [initialGameState]⟩
     (by norm_num [initialGameState])
     (Or.inl (by norm_num [clockPhase, initialGameState]))⟩

theorem halftime_flip_then_play_witness :
    ((⟨1, 10, 50, 0, 0, Side.home, 2, 10⟩ : GameState).quarter = 2) ∧
    ((⟨1, 10, 50, 0, 0, Side.home, 2, 10⟩ : GameState).timeRemaining - 15 ≤ 0) ∧
    updateGameState 5 "tackle" 15 ⟨1, 10, 50, 0, 0, Side.home, 2, 10⟩ =
      updateGameStateCore 5 "tackle" ⟨1, 10, 25, 0, 0, Side.home.other, 3, 300⟩ :=
  ⟨rfl, by norm_num,
   halftime_flip_then_play 5 "tackle" 15 ⟨1, 10, 50, 0, 0, Side.home, 2, 10⟩ rfl (by norm_num)⟩

theorem goalline_forced_touchdown_witness :
    (0 < (initialGameState.timeRemaining - 15)) ∧
    (100 ≤ initialGameState.ballPosition + 55) ∧
    updateGameState 55 "tackle" 15 initialGameState =
      updateGameState 55 "touchdown" 15 initialGameState ∧
    updateGameState 55 "tackle" 15 initialGameState =
      ⟨1, 10, 25, initialGameState.homeScore +
          (if initialGameState.possession = Side.home then 7 else 0),
        initialGameState.awayScore +
          (if initialGameState.possession = Side.home then 0 else 7),
        initialGameState.possession.other, initialGameState.quarter,
        initialGameState.timeRemaining - 15⟩ :=
  ⟨by norm_num [initialGameState], by norm_num [initialGameState],
   goalline_forced_touchdown 55 "tackle" 15 initialGameState
     (by norm_num [initialGameState]) (by norm_num [initialGameState])
     (by decide) (by decide) (by decide)⟩

theorem quarter5_terminal_witness :
    updateGameState 4 "tackle" 7 ⟨1, 10, 50, 14, 7, Side.home, 5, 0⟩ =
      ⟨1, 10, 50, 14, 7, Side.home, 5, 0⟩ ∧
    updateGameState 4 "tackle" 7 ⟨2, 8, 40, 14, 7, Side.away, 4, 3⟩ =
      ⟨2, 8, 40, 14, 7, Side.away, 5, 0⟩ :=
  ⟨(quarter5_terminal 4 "tackle" 7 ⟨1, 10, 50, 14, 7, Side.home, 5, 0⟩).1 rfl rfl (by norm_num),
   (quarter5_terminal 4 "tackle" 7 ⟨2, 8, 40, 14, 7, Side.away, 4, 3⟩).2 (by norm_num)
     (by norm_num)⟩

theorem ballPosition_invariant_witness :
    (1 ≤ (updateGameState 30 "tackle" 15 initialGameState).ballPosition ∧
      (updateGameState 30 "tackle" 15 initialGameState).ballPosition ≤ 99) ∧
    (1 ≤ (updateGameStateFromReplay 30 "tackle" 15 initialGameState).ballPosition ∧
      (updateGameStateFromReplay 30 "tackle" 15 initialGameState).ballPosition ≤ 99) :=
  ballPosition_invariant 30 "tackle" 15 initialGameState (by norm_num [initialGameState])
    (by norm_num [initialGameState])

theorem normDiffUpAux_congr (f : ℕ) (d : ℚ) : ∃ k : ℤ, normDiffUpAux f d = d - 360 * k := by
  induction f generalizing d with
  | zero => exact ⟨0, by simp [normDiffUpAux]⟩
  | succ f ih =>
    by_cases h : 180 < d
    · obtain ⟨k, hk⟩ := ih (d - 360)
      refine ⟨k + 1, ?_⟩
      simp only [normDiffUpAux, if_pos h, hk]
      push_cast
      ring
    · exact ⟨0, by simp [normDiffUpAux, if_neg h]⟩

theorem normDiffUpAux_le (f : ℕ) (d : ℚ) (h : ⌈(d - 180) / 360⌉ ≤ (f : ℤ)) :
    normDiffUpAux f d ≤ 180 := by
  induction f generalizing d with
  | zero =>
    have : (d - 180) / 360 ≤ 0 := by exact_mod_cast Int.ceil_le.mp (by exact_mod_cast h)
    have : d - 180 ≤ 0 := by
      by_contra hc
      push_neg at hc
      have := div_pos hc (by norm_num : (0:ℚ) < 360)
      linarith
    simpa [normDiffUpAux] using by linarith
  | succ f ih =>
    by_cases hd : 180 < d
    · simp only [normDiffUpAux, if_pos hd]
      refine ih (d - 360) ?_
      have : ⌈(d - 360 - 180) / 360⌉ = ⌈(d - 180) / 360⌉ - 1 := by
        rw [show (d - 360 - 180) / 360 = (d - 180) / 360 - 1 by ring]
        exact Int.ceil_sub_one _
      omega
    · simp only [normDiffUpAux, if_neg hd]
      linarith

theorem normDiffUp_le (d : ℚ) : normDiffUp d ≤ 180 := by
  refine normDiffUpAux_le _ d ?_
  have h1 : ⌈(d - 180) / 360⌉ ≤ ⌈d / 360⌉ :=
    Int.ceil_le_ceil (div_le_div_of_nonneg_right (by linarith) (by norm_num))
  have h2 : ⌈d / 360⌉ ≤ (⌈d / 360⌉.toNat : ℤ) := Int.self_le_toNat _
  push_cast
  omega

theorem normDiffUp_congr (d : ℚ) : ∃ k : ℤ, normDiffUp d = d - 360 * k :=
  normDiffUpAux_congr _ d

theorem normDiffDownAux_congr (f : ℕ) (d : ℚ) : ∃ k : ℤ, normDiffDownAux f d = d + 360 * k := by
  induction f generalizing d with
  | zero => exact ⟨0, by simp [normDiffDownAux]⟩
  | succ f ih =>
    by_cases h : d < -180
    · obtain ⟨k, hk⟩ := ih (d + 360)
      refine ⟨k + 1, ?_⟩
      simp only [normDiffDownAux, if_pos h, hk]
      push_cast
      ring
    · exact ⟨0, by simp [normDiffDownAux, if_neg h]⟩

theorem normDiffDownAux_ge (f : ℕ) (d : ℚ) (h : ⌈(-180 - d) / 360⌉ ≤ (f : ℤ)) :
    -180 ≤ normDiffDownAux f d := by
  induction f generalizing d with
  | zero =>
    have : (-180 - d) / 360 ≤ 0 := by exact_mod_cast Int.ceil_le.mp (by exact_mod_cast h)
    have : -180 - d ≤ 0 := by
      by_contra hc
      push_neg at hc
      have := div_pos hc (by norm_num : (0:ℚ) < 360)
      linarith
    simpa [normDiffDownAux] using by linarith
  | succ f ih =>
    by_cases hd : d < -180
    · simp only [normDiffDownAux, if_pos hd]
      refine ih (d + 360) ?_
      have : ⌈(-180 - (d + 360)) / 360⌉ = ⌈(-180 - d) / 360⌉ - 1 := by
        rw [show (-180 - (d + 360)) / 360 = (-180 - d) / 360 - 1 by ring]
        exact Int.ceil_sub_one _
      omega
    · simp only [normDiffDownAux, if_neg hd]
      linarith

theorem normDiffDownAux_le (f : ℕ) (d : ℚ) (h : d ≤ 180) : normDiffDownAux f d ≤ 180 := by
  induction f generalizing d with
  | zero => simpa [normDiffDownAux] using h
  | succ f ih =>
    by_cases hd : d < -180
    · simp only [normDiffDownAux, if_pos hd]
      exact ih (d + 360) (by linarith)
    · simpa [normDiffDownAux, if_neg hd] using h

theorem normDiffDown_ge (d : ℚ) : -180 ≤ normDiffDown d := by
  refine normDiffDownAux_ge _ d ?_
  have h1 : ⌈(-180 - d) / 360⌉ ≤ ⌈-d / 360⌉ :=
    Int.ceil_le_ceil (div_le_div_of_nonneg_right (by linarith) (by norm_num))
  have h2 : ⌈-d / 360⌉ ≤ (⌈-d / 360⌉.toNat : ℤ) := Int.self_le_toNat _
  push_cast
  omega

theorem normDiff_spec (d : ℚ) :
    -180 ≤ normDiff d ∧ normDiff d ≤ 180 ∧ ∃ k : ℤ, d - normDiff d = 360 * k := by
  refine ⟨normDiffDown_ge _, ?_, ?_⟩
  · exact normDiffDownAux_le _ _ (normDiffUp_le d)
  · obtain ⟨k₁, hk₁⟩ := normDiffUp_congr d
    obtain ⟨k₂, hk₂⟩ := normDiffDownAux_congr (⌈-normDiffUp d / 360⌉.toNat + 1) (normDiffUp d)
    refine ⟨k₁ - k₂, ?_⟩
    rw [normDiff, normDiffDown, hk₂, hk₁]
    push_cast
    ring

theorem normDiff_eval_cex : normDiff ((-180 : ℚ) - 0) = -180 := by
  have hcu : ⌈((-180 : ℚ) - 0) / 360⌉ = 0 := by norm_num
  have hcd : ⌈-((-180 : ℚ) - 0) / 360⌉ = 1 := by
    rw [Int.ceil_eq_iff]
    norm_num
  have h1 : normDiffUp ((-180 : ℚ) - 0) = (-180 : ℚ) - 0 := by
    rw [normDiffUp, hcu]
    norm_num [normDiffUpAux]
  rw [normDiff, h1, normDiffDown, hcd]
  norm_num [normDiffDownAux]

theorem normDiff_eval_20 : normDiff ((10 : ℚ) - 350) = 20 := by
  obtain ⟨hge, hle, k, hk⟩ := normDiff_spec ((10 : ℚ) - 350)
  have hn : normDiff ((10 : ℚ) - 350) = -340 - 360 * (k : ℚ) := by linarith
  have hkb : k = -1 := by
    rw [hn] at hge hle
    have hA : (360 * (k : ℚ)) ≤ -160 := by linarith
    have hB : (-520 : ℚ) ≤ 360 * (k : ℚ) := by linarith
    have hA' : (360 * k : ℤ) ≤ -160 := by exact_mod_cast hA
    have hB' : (-520 : ℤ) ≤ 360 * k := by exact_mod_cast hB
    omega
  rw [hn, hkb]
  norm_num

/-- C6 (amended): heading interpolation follows the shortest angular path —
`lerpAngle 350 10 0.5 = 360`, which is congruent to 0 (not to 180) modulo 360;
and in general the raw difference `b - a` is normalized by the two wrap loops
into the *closed* range `[-180, 180]` (congruent to `b - a` modulo 360) before
scaling by `t`.  The spec's half-open range `(-180, 180]` is refuted at the raw
difference `-180` by `lerpAngle_shortest_path_cex`. -/
theorem lerpAngle_shortest_path :
    lerpAngle 350 10 (1/2) = 360 ∧
    (∃ k : ℤ, lerpAngle 350 10 (1/2) - 0 = 360 * (k : ℚ)) ∧
    (¬ ∃ k : ℤ, lerpAngle 350 10 (1/2) - 180 = 360 * (k : ℚ)) ∧
    (∀ a b t : ℚ, -180 ≤ normDiff (b - a) ∧ normDiff (b - a) ≤ 180 ∧
      (∃ k : ℤ, (b - a) - normDiff (b - a) = 360 * (k : ℚ)) ∧
      lerpAngle a b t = a + normDiff (b - a) * t) := by
  have he : lerpAngle 350 10 (1/2) = 360 := by
    rw [lerpAngle, normDiff_eval_20]
    norm_num
  refine ⟨he, ⟨1, by rw [he]; norm_num⟩, ?_, ?_⟩
  · rintro ⟨k, hk⟩
    rw [he] at hk
    have hk' : (180 : ℚ) = 360 * (k : ℚ) := by linarith
    have : (180 : ℤ) = 360 * k := by exact_mod_cast hk'
    omega
  · intro a b t
    obtain ⟨h1, h2, h3⟩ := normDiff_spec (b - a)
    exact ⟨h1, h2, h3, rfl⟩

/-- C6 (counterexample): for the heading pair `(0, -180)` the raw difference
`-180` is left at `-180` by both wrap loops, outside the claimed normalization
range `(-180, 180]`; at `t = 0.5` the code yields `-90`, whereas the claimed
`(-180, 180]`-normalization (which maps the difference to `+180`) would yield
`+90 ≠ -90`. -/
theorem lerpAngle_shortest_path_cex :
    normDiff ((-180 : ℚ) - 0) = -180 ∧
    ¬ (-180 < normDiff ((-180 : ℚ) - 0)) ∧
    lerpAngle 0 (-180) (1/2) = -90 ∧
    ((0 : ℚ) + 180 * (1/2) = 90) ∧ ((-90 : ℚ) ≠ 90) := by
  refine ⟨normDiff_eval_cex, by rw [normDiff_eval_cex]; norm_num, ?_, by norm_num, by norm_num⟩
  rw [lerpAngle, normDiff_eval_cex]
  norm_num

instance : IsTotal CompressedKeyframe (fun a b => a.t ≤ b.t) := ⟨fun a b => le_total a.t b.t⟩

instance : IsTrans CompressedKeyframe (fun a b => a.t ≤ b.t) := ⟨fun _ _ _ => le_trans⟩

theorem sorted_head_le {l : List CompressedKeyframe}
    (hs : l.Sorted (fun a b => a.t ≤ b.t)) (hne : l ≠ []) :
    ∀ x ∈ l, (l.head hne).t ≤ x.t := by
  cases l with
  | nil => exact absurd rfl hne
  | cons a t =>
    intro x hx
    rcases List.mem_cons.mp hx with h | h
    · subst h; exact le_refl _
    · exact (List.sorted_cons.mp hs).1 x h

theorem le_sorted_getLast {l : List CompressedKeyframe}
    (hs : l.Sorted (fun a b => a.t ≤ b.t)) (hne : l ≠ []) :
    ∀ x ∈ l, x.t ≤ (l.getLast hne).t := by
  induction l with
  | nil => exact absurd rfl hne
  | cons a t ih =>
    intro x hx
    cases t with
    | nil =>
      rcases List.mem_cons.mp hx with h | h
      · subst h; exact le_refl _
      · exact absurd h (List.not_mem_nil x)
    | cons b t' =>
      rw [List.getLast_cons (by simp)]
      rcases List.mem_cons.mp hx with h | h
      · subst h
        exact (List.sorted_cons.mp hs).1 _ (List.getLast_mem _)
      · exact ih (List.sorted_cons.mp hs).2 (by simp) x h

/-- C4 (confirmed): for every non-empty keyframe sequence, `expandKeyframes`
emits exactly `lastTick - firstTick + 1` frames, where `firstTick`/`lastTick`
are the minimum/maximum keyframe ticks (characterized below as a member that
bounds all ticks), and the `j`-th emitted frame carries tick `firstTick + j` —
consecutive integer ticks from `firstTick` to `lastTick` inclusive. -/
theorem expandKeyframes_count (c : CompressedSimulation) (h : c.keyframes ≠ []) :
    ∃ lo hi : ℤ,
      lo ∈ c.keyframes.map (·.t) ∧ (∀ x ∈ c.keyframes.map (·.t), lo ≤ x) ∧
      hi ∈ c.keyframes.map (·.t) ∧ (∀ x ∈ c.keyframes.map (·.t), x ≤ hi) ∧
      ((expandKeyframes c).length : ℤ) = hi - lo + 1 ∧
      ∀ j : ℕ, j < (expandKeyframes c).length →
        ((expandKeyframes c).getD j defaultFrame).tick = lo + (j : ℤ) := by
  have hE : c.keyframes.isEmpty = false := by simp [List.isEmpty_iff, h]
  have hs := List.sorted_insertionSort (fun a b : CompressedKeyframe => a.t ≤ b.t) c.keyframes
  have hperm := List.perm_insertionSort (fun a b : CompressedKeyframe => a.t ≤ b.t) c.keyframes
  cases hseq : c.keyframes.insertionSort (fun a b => a.t ≤ b.t) with
  | nil =>
    rw [hseq] at hperm
    exact absurd (List.nil_perm.mp hperm).symm (by simpa using h)
  | cons k0 rest =>
    rw [hseq] at hs hperm
    have hexp0 : expandKeyframes c =
        match k0 :: rest with
        | [] => []
        | [kf] => [decompressKeyframe kf]
        | kf₀ :: rest =>
          (List.range ((((kf₀ :: rest).getLast?.getD defaultKF).t - kf₀.t + 1).toNat)).map
            (fun (k : ℕ) => interpolateFrameAt (kf₀ :: rest) (kf₀.t + (k : ℤ))) := by
      unfold expandKeyframes
      rw [hE]
      simp only [Bool.false_eq_true, if_false, hseq]
    cases rest with
    | nil =>
      have hsingle : c.keyframes = [k0] := List.perm_singleton.mp hperm.symm
      refine ⟨k0.t, k0.t, ?_, ?_, ?_, ?_, ?_, ?_⟩ <;>
        simp [hsingle, hexp0, decompressKeyframe]
    | cons k1 rest' =>
      set s := k0 :: k1 :: rest' with hsdef
      have hne : s ≠ [] := by simp [hsdef]
      have hmem : ∀ x, x ∈ c.keyframes ↔ x ∈ s := fun x => (hperm.mem_iff).symm
      have hlastmem : s.getLast hne ∈ s := List.getLast_mem hne
      have hlast? : s.getLast?.getD defaultKF = s.getLast hne := by
        rw [List.getLast?_eq_getLast s hne]; rfl
      set lo := k0.t with hlo
      set hi := (s.getLast hne).t with hhi
      have hlohi : lo ≤ hi := sorted_head_le hs hne _ hlastmem
      have hexp : expandKeyframes c =
          (List.range ((hi - lo + 1).toNat)).map
            (fun (k : ℕ) => interpolateFrameAt s (lo + (k : ℤ))) := by
        rw [hexp0]
        simp only [hsdef, hlast?]
      refine ⟨lo, hi, ?_, ?_, ?_, ?_, ?_, ?_⟩
      · exact List.mem_map.mpr ⟨k0, (hmem k0).mpr (by simp [hsdef]), rfl⟩
      · intro x hx
        obtain ⟨kf, hkf, rfl⟩ := List.mem_map.mp hx
        exact sorted_head_le hs hne kf ((hmem kf).mp hkf)
      · exact List.mem_map.mpr ⟨s.getLast hne, (hmem _).mpr hlastmem, rfl⟩
      · intro x hx
        obtain ⟨kf, hkf, rfl⟩ := List.mem_map.mp hx
        exact le_sorted_getLast hs hne kf ((hmem kf).mp hkf)
      · rw [hexp]
        simp only [List.length_map, List.length_range]
        omega
      · intro j hj
        rw [hexp] at hj ⊢
        simp only [List.length_map, List.length_range] at hj
        rw [List.getD_eq_getElem _ _ (by simpa using hj)]
        simp only [List.getElem_map, List.getElem_range]
        rfl

theorem mem_eraseDups_loop (a : String) :
    ∀ (l acc : List String), a ∈ List.eraseDups.loop l acc ↔ a ∈ l ∨ a ∈ acc := by
  intro l
  induction l with
  | nil => intro acc; simp [List.eraseDups.loop]
  | cons x xs ih =>
    intro acc
    by_cases hx : acc.elem x
    · rw [List.eraseDups.loop, hx]
      rcases eq_or_ne a x with rfl | hax
      · simp [ih acc, List.elem_iff.mp hx]
      · simp [ih acc, hax]
    · rw [List.eraseDups.loop, Bool.of_not_eq_true hx]
      rw [ih (x :: acc)]
      simp only [List.mem_cons]
      tauto

theorem mem_eraseDups_str (a : String) (l : List String) : a ∈ l.eraseDups ↔ a ∈ l := by
  rw [List.eraseDups, mem_eraseDups_loop]
  simp

theorem mem_getAllPlayerIds (keyframes : List CompressedKeyframe) (pid : String) :
    pid ∈ getAllPlayerIds keyframes ↔
      ∃ kf ∈ keyframes, ∃ p ∈ kf.p, p.id = pid := by
  rw [getAllPlayerIds]
  rw [(List.perm_insertionSort (· ≤ ·) _).mem_iff]
  rw [mem_eraseDups_str]
  simp [List.mem_flatMap, eq_comm]

theorem beforeIndexLoop_le (tick : ℤ) :
    ∀ (l : List CompressedKeyframe) (i acc : ℕ),
      beforeIndexLoop tick l i acc ≤ max acc (i + l.length - 1) := by
  intro l
  induction l with
  | nil => intro i acc; simp [beforeIndexLoop]
  | cons k rest ih =>
    intro i acc
    rw [beforeIndexLoop]
    split
    · calc beforeIndexLoop tick rest (i + 1) i ≤ max i (i + 1 + rest.length - 1) :=
          ih (i + 1) i
        _ ≤ max acc (i + (k :: rest).length - 1) := by
          simp only [List.length_cons]
          omega
    · omega

theorem findPlayer_id (kf : CompressedKeyframe) (pid : String) (p : KPlayer)
    (h : findPlayer kf pid = some p) : p ∈ kf.p ∧ p.id = pid := by
  refine ⟨List.mem_of_find?_eq_some h, ?_⟩
  have := List.find?_some h
  simpa using this

theorem lerp_self (a t : ℚ) : lerp a a t = a := by
  rw [lerp]; ring

theorem normDiff_zero : normDiff 0 = 0 := by
  have h1 : normDiffUp 0 = 0 := by
    rw [normDiffUp]
    norm_num [normDiffUpAux]
  rw [normDiff, h1, normDiffDown]
  norm_num [normDiffDownAux]

theorem lerpAngle_self (a t : ℚ) : lerpAngle a a t = a := by
  rw [lerpAngle, sub_self, normDiff_zero]
  ring

theorem mkPlayerState_self (pid : String) (p : KPlayer) (t : ℚ) :
    mkPlayerState pid p p t =
      { id := pid, x := p.x, z := p.z, rotation := p.rot, animation := p.anim } := by
  rw [mkPlayerState]
  simp [lerp_self, lerpAngle_self, ite_self]

theorem surround_mem (s : List CompressedKeyframe) (hne : s ≠ []) (tick : ℤ) :
    (findSurroundingKeyframes s tick).before ∈ s ∧
      (findSurroundingKeyframes s tick).after ∈ s := by
  have hlen : 1 ≤ s.length := by
    cases s with
    | nil => exact absurd rfl hne
    | cons a t => simp
  have hb : beforeIndexLoop tick s 0 0 ≤ s.length - 1 := by
    have := beforeIndexLoop_le tick s 0 0
    omega
  have hb' : beforeIndexLoop tick s 0 0 < s.length := by omega
  have ha' : min (beforeIndexLoop tick s 0 0 + 1) (s.length - 1) < s.length := by omega
  constructor
  · rw [findSurroundingKeyframes]
    simp only
    rw [List.getD_eq_getElem _ _ hb']
    exact List.getElem_mem hb'
  · rw [findSurroundingKeyframes]
    simp only
    rw [List.getD_eq_getElem _ _ ha']
    exact List.getElem_mem ha'

theorem interpolateFrameAt_players_spec (s : List CompressedKeyframe) (hne : s ≠ [])
    (tick : ℤ) (pid : String) :
    (((findPlayer (findSurroundingKeyframes s tick).before pid).isSome ∨
        (findPlayer (findSurroundingKeyframes s tick).after pid).isSome) →
      ∃ e ∈ (interpolateFrameAt s tick).players, e.id = pid) ∧
    (findPlayer (findSurroundingKeyframes s tick).before pid = none →
      findPlayer (findSurroundingKeyframes s tick).after pid = none →
      ∀ e ∈ (interpolateFrameAt s tick).players, e.id ≠ pid) ∧
    (∀ pa, findPlayer (findSurroundingKeyframes s tick).before pid = none →
      findPlayer (findSurroundingKeyframes s tick).after pid = some pa →
      ({ id := pid, x := pa.x, z := pa.z, rotation := pa.rot, animation := pa.anim } :
        PlayerState) ∈ (interpolateFrameAt s tick).players) ∧
    (∀ pb, findPlayer (findSurroundingKeyframes s tick).before pid = some pb →
      findPlayer (findSurroundingKeyframes s tick).after pid = none →
      ({ id := pid, x := pb.x, z := pb.z, rotation := pb.rot, animation := pb.anim } :
        PlayerState) ∈ (interpolateFrameAt s tick).players) := by
  obtain ⟨hbmem, hamem⟩ := surround_mem s hne tick
  have hplayers : (interpolateFrameAt s tick).players =
      (getAllPlayerIds s).filterMap (fun playerId =>
        match findPlayer (findSurroundingKeyframes s tick).before playerId,
              findPlayer (findSurroundingKeyframes s tick).after playerId with
        | none, none => none
        | some pb, none => some (mkPlayerState playerId pb pb (findSurroundingKeyframes s tick).t)
        | none, some pa => some (mkPlayerState playerId pa pa (findSurroundingKeyframes s tick).t)
        | some pb, some pa => some (mkPlayerState playerId pb pa (findSurroundingKeyframes s tick).t)) :=
    rfl
  refine ⟨?_, ?_, ?_, ?_⟩
  · intro h
    have hid : pid ∈ getAllPlayerIds s := by
      rcases h with h | h
      · obtain ⟨pb, hpb⟩ := Option.isSome_iff_exists.mp h
        obtain ⟨hin, hidp⟩ := findPlayer_id _ _ _ hpb
        exact (mem_getAllPlayerIds s pid).mpr ⟨_, hbmem, pb, hin, hidp⟩
      · obtain ⟨pa, hpa⟩ := Option.isSome_iff_exists.mp h
        obtain ⟨hin, hidp⟩ := findPlayer_id _ _ _ hpa
        exact (mem_getAllPlayerIds s pid).mpr ⟨_, hamem, pa, hin, hidp⟩
    rw [hplayers]
    cases hb : findPlayer (findSurroundingKeyframes s tick).before pid with
    | none =>
      cases ha : findPlayer (findSurroundingKeyframes s tick).after pid with
      | none => simp [hb, ha] at h
      | some pa =>
        exact ⟨_, List.mem_filterMap.mpr ⟨pid, hid, by rw [hb, ha]⟩, rfl⟩
    | some pb =>
      cases ha : findPlayer (findSurroundingKeyframes s tick).after pid with
      | none => exact ⟨_, List.mem_filterMap.mpr ⟨pid, hid, by rw [hb, ha]⟩, rfl⟩
      | some pa => exact ⟨_, List.mem_filterMap.mpr ⟨pid, hid, by rw [hb, ha]⟩, rfl⟩
  · intro hb ha e he
    rw [hplayers] at he
    obtain ⟨a, hamem', hfa⟩ := List.mem_filterMap.mp he
    rcases eq_or_ne a pid with rfl | hne'
    · rw [hb, ha] at hfa
      simp at hfa
    · cases hb' : findPlayer (findSurroundingKeyframes s tick).before a with
      | none =>
        cases ha' : findPlayer (findSurroundingKeyframes s tick).after a with
        | none => rw [hb', ha'] at hfa; simp at hfa
        | some pa =>
          rw [hb', ha'] at hfa
          simp only [Option.some.injEq] at hfa
          rw [← hfa]
          simpa [mkPlayerState] using hne'
      | some pb =>
        cases ha' : findPlayer (findSurroundingKeyframes s tick).after a with
        | none =>
          rw [hb', ha'] at hfa
          simp only [Option.some.injEq] at hfa
          rw [← hfa]
          simpa [mkPlayerState] using hne'
        | some pa =>
          rw [hb', ha'] at hfa
          simp only [Option.some.injEq] at hfa
          rw [← hfa]
          simpa [mkPlayerState] using hne'
  · intro pa hb ha
    have hid : pid ∈ getAllPlayerIds s := by
      obtain ⟨hin, hidp⟩ := findPlayer_id _ _ _ ha
      exact (mem_getAllPlayerIds s pid).mpr ⟨_, hamem, pa, hin, hidp⟩
    rw [hplayers]
    refine List.mem_filterMap.mpr ⟨pid, hid, ?_⟩
    rw [hb, ha]
    exact congrArg some (mkPlayerState_self pid pa _)
  · intro pb hb ha
    have hid : pid ∈ getAllPlayerIds s := by
      obtain ⟨hin, hidp⟩ := findPlayer_id _ _ _ hb
      exact (mem_getAllPlayerIds s pid).mpr ⟨_, hbmem, pb, hin, hidp⟩
    rw [hplayers]
    refine List.mem_filterMap.mpr ⟨pid, hid, ?_⟩
    rw [hb, ha]
    exact congrArg some (mkPlayerState_self pid pb _)

theorem expandKeyframes_getD_eq (c : CompressedSimulation) (h2 : 2 ≤ c.keyframes.length)
    (j : ℕ) (hj : j < (expandKeyframes c).length) :
    ∃ tick : ℤ,
      (expandKeyframes c).getD j defaultFrame =
        interpolateFrameAt (c.keyframes.insertionSort (fun a b => a.t ≤ b.t)) tick := by
  have h : c.keyframes ≠ [] := by
    intro hc; rw [hc] at h2; simp at h2
  have hE : c.keyframes.isEmpty = false := by simp [List.isEmpty_iff, h]
  have hperm := List.perm_insertionSort (fun a b : CompressedKeyframe => a.t ≤ b.t) c.keyframes
  cases hseq : c.keyframes.insertionSort (fun a b => a.t ≤ b.t) with
  | nil =>
    rw [hseq] at hperm
    rw [← hperm.length_eq] at h2
    simp at h2
  | cons k0 rest =>
    rw [hseq] at hperm
    have hexp0 : expandKeyframes c =
        match k0 :: rest with
        | [] => []
        | [kf] => [decompressKeyframe kf]
        | kf₀ :: rest =>
          (List.range ((((kf₀ :: rest).getLast?.getD defaultKF).t - kf₀.t + 1).toNat)).map
            (fun (k : ℕ) => interpolateFrameAt (kf₀ :: rest) (kf₀.t + (k : ℤ))) := by
      unfold expandKeyframes
      rw [hE]
      simp only [Bool.false_eq_true, if_false, hseq]
    cases rest with
    | nil =>
      rw [← hperm.length_eq] at h2
      simp at h2
    | cons k1 rest' =>
      refine ⟨k0.t + (j : ℤ), ?_⟩
      rw [hexp0] at hj ⊢
      simp only [List.length_map, List.length_range] at hj
      rw [List.getD_eq_getElem _ _ (by simpa using hj)]
      simp only [List.getElem_map, List.getElem_range]

/-- C5 (amended): for every keyframe sequence with at least two keyframes,
every output frame of `expandKeyframes` is the interpolation at some tick whose
bracketing pair is given by `findSurroundingKeyframes`, and an actor id has a
player entry in that frame *iff* it is present in at least one of the two
bracketing keyframes: present in at least one side implies an entry exists;
absent from both sides implies no entry; and when the actor is present in
exactly one side, that side's keyframe values are used for both interpolation
endpoints, so the entry carries exactly the present keyframe's `x`, `z`,
rotation and animation.  The unamended claim (an entry in *every* output frame
for an actor appearing in *any* input keyframe) is refuted by
`expandKeyframes_actor_presence_cex`. -/
theorem expandKeyframes_actor_presence (c : CompressedSimulation)
    (h2 : 2 ≤ c.keyframes.length) (j : ℕ) (hj : j < (expandKeyframes c).length)
    (pid : String) :
    ∃ tick : ℤ,
      (expandKeyframes c).getD j defaultFrame =
        interpolateFrameAt (c.keyframes.insertionSort (fun a b => a.t ≤ b.t)) tick ∧
      (((findPlayer (findSurroundingKeyframes
            (c.keyframes.insertionSort (fun a b => a.t ≤ b.t)) tick).before pid).isSome ∨
        (findPlayer (findSurroundingKeyframes
            (c.keyframes.insertionSort (fun a b => a.t ≤ b.t)) tick).after pid).isSome) →
        ∃ e ∈ ((expandKeyframes c).getD j defaultFrame).players, e.id = pid) ∧
      (findPlayer (findSurroundingKeyframes
          (c.keyframes.insertionSort (fun a b => a.t ≤ b.t)) tick).before pid = none →
        findPlayer (findSurroundingKeyframes
          (c.keyframes.insertionSort (fun a b => a.t ≤ b.t)) tick).after pid = none →
        ∀ e ∈ ((expandKeyframes c).getD j defaultFrame).players, e.id ≠ pid) ∧
      (∀ pa, findPlayer (findSurroundingKeyframes
          (c.keyframes.insertionSort (fun a b => a.t ≤ b.t)) tick).before pid = none →
        findPlayer (findSurroundingKeyframes
          (c.keyframes.insertionSort (fun a b => a.t ≤ b.t)) tick).after pid = some pa →
        ({ id := pid, x := pa.x, z := pa.z, rotation := pa.rot, animation := pa.anim } :
          PlayerState) ∈ ((expandKeyframes c).getD j defaultFrame).players) ∧
      (∀ pb, findPlayer (findSurroundingKeyframes
          (c.keyframes.insertionSort (fun a b => a.t ≤ b.t)) tick).before pid = some pb →
        findPlayer (findSurroundingKeyframes
          (c.keyframes.insertionSort (fun a b => a.t ≤ b.t)) tick).after pid = none →
        ({ id := pid, x := pb.x, z := pb.z, rotation := pb.rot, animation := pb.anim } :
          PlayerState) ∈ ((expandKeyframes c).getD j defaultFrame).players) := by
  obtain ⟨tick, hfr⟩ := expandKeyframes_getD_eq c h2 j hj
  have hne : c.keyframes.insertionSort (fun a b => a.t ≤ b.t) ≠ [] := by
    intro hc
    have := (List.perm_insertionSort (fun a b : CompressedKeyframe => a.t ≤ b.t)
      c.keyframes).length_eq
    rw [hc] at this
    rw [← this] at h2
    simp at h2
  obtain ⟨h1', h2', h3', h4'⟩ := interpolateFrameAt_players_spec _ hne tick pid
  exact ⟨tick, hfr, by rw [hfr]; exact h1', by rw [hfr]; exact h2',
    by rw [hfr]; exact h3', by rw [hfr]; exact h4'⟩

/-- C5 (counterexample): with keyframes at ticks 0 and 2 where actor `"a"`
appears only in the first, the output frame at tick 2 (whose bracketing pair is
the final keyframe twice) contains no entry for `"a"`: its player list is
empty, although `"a"` appears in an input keyframe. -/
theorem expandKeyframes_actor_presence_cex :
    (expandKeyframes sampleSimA).length = 3 ∧
    findPlayer ⟨0, (0, 0, 0), [⟨"a", 1, 2, 3, "idle"⟩], none⟩ "a" =
      some ⟨"a", 1, 2, 3, "idle"⟩ ∧
    ((expandKeyframes sampleSimA).getD 2 defaultFrame).players = [] := by
  refine ⟨?_, ?_, ?_⟩ <;> decide

theorem expandKeyframes_count_witness :
    sampleSim35.keyframes ≠ [] ∧
    (∃ lo hi : ℤ,
      lo ∈ sampleSim35.keyframes.map (·.t) ∧
      (∀ x ∈ sampleSim35.keyframes.map (·.t), lo ≤ x) ∧
      hi ∈ sampleSim35.keyframes.map (·.t) ∧
      (∀ x ∈ sampleSim35.keyframes.map (·.t), x ≤ hi) ∧
      ((expandKeyframes sampleSim35).length : ℤ) = hi - lo + 1 ∧
      ∀ j : ℕ, j < (expandKeyframes sampleSim35).length →
        ((expandKeyframes sampleSim35).getD j defaultFrame).tick = lo + (j : ℤ)) :=
  ⟨by decide, expandKeyframes_count sampleSim35 (by decide)⟩

theorem expandKeyframes_actor_presence_witness :
    2 ≤ sampleSimA.keyframes.length ∧
    0 < (expandKeyframes sampleSimA).length ∧
    (∃ tick : ℤ,
      (expandKeyframes sampleSimA).getD 0 defaultFrame =
        interpolateFrameAt
          (sampleSimA.keyframes.insertionSort (fun a b => a.t ≤ b.t)) tick ∧
      True) :=
  ⟨by decide, by decide,
   match expandKeyframes_actor_presence sampleSimA (by decide) 0 (by decide) "a" with
   | ⟨tick, hfr, _⟩ => ⟨tick, hfr, trivial⟩⟩

/-- C8 (confirmed): for every waypoint-form input with a ball waypath of length
N ≥ 2 and elapsed time T, `ultraCompactToKeyframes` emits exactly N keyframes;
with `totalTicks = round(T * 0.75 * 10)` the i-th keyframe's tick equals
`round(i / (N-1) * totalTicks)` (tick 0 for the first); the event list is
attached only to keyframe 0; and an actor with exactly one waypoint receives
that waypoint's values in every output keyframe. -/
theorem ultraCompactToKeyframes_spec (data : UltraCompactResponse)
    (hN : 2 ≤ data.ballPath.length) :
    (ultraCompactToKeyframes data).keyframes.length = data.ballPath.length ∧
    (∀ i : ℕ, i < data.ballPath.length →
      ((ultraCompactToKeyframes data).keyframes.getD i defaultKF).t =
        round (((i : ℚ) / ((data.ballPath.length : ℚ) - 1)) *
          ((round (data.timeElapsed * (3/4) * 10) : ℤ) : ℚ))) ∧
    ((ultraCompactToKeyframes data).keyframes.getD 0 defaultKF).t = 0 ∧
    ((ultraCompactToKeyframes data).keyframes.getD 0 defaultKF).e = some data.events ∧
    (∀ i : ℕ, 1 ≤ i → i < data.ballPath.length →
      ((ultraCompactToKeyframes data).keyframes.getD i defaultKF).e = none) ∧
    (∀ p ∈ data.playerPaths, ∀ w, p.waypoints = [w] →
      ∀ i : ℕ, i < data.ballPath.length →
        ({ id := p.id, x := w.x, z := w.z, rot := w.rotation, anim := w.animation } :
          KPlayer) ∈ ((ultraCompactToKeyframes data).keyframes.getD i defaultKF).p) := by
  have hkf : (ultraCompactToKeyframes data).keyframes =
      (List.range data.ballPath.length).map
        (ultraCompactKeyframeAt data (round (data.timeElapsed * (3/4) * 10))) := rfl
  have hget : ∀ i : ℕ, i < data.ballPath.length →
      (ultraCompactToKeyframes data).keyframes.getD i defaultKF =
        ultraCompactKeyframeAt data (round (data.timeElapsed * (3/4) * 10)) i := by
    intro i hi
    rw [hkf, List.getD_eq_getElem _ _ (by simpa using hi)]
    simp only [List.getElem_map, List.getElem_range]
  have hN0 : 0 < data.ballPath.length := by omega
  refine ⟨?_, ?_, ?_, ?_, ?_, ?_⟩
  · rw [hkf]; simp
  · intro i hi
    rw [hget i hi, ultraCompactKeyframeAt]
    rcases Nat.eq_zero_or_pos i with rfl | hpos
    · simp
    · simp only [if_neg (by omega : ¬i = 0)]
  · rw [hget 0 hN0, ultraCompactKeyframeAt]
    simp
  · rw [hget 0 hN0, ultraCompactKeyframeAt]
    simp
  · intro i h1 hi
    rw [hget i hi, ultraCompactKeyframeAt]
    simp only [if_neg (by omega : ¬i = 0)]
  · intro p hp w hw i hi
    rw [hget i hi, ultraCompactKeyframeAt]
    simp only
    refine List.mem_map.mpr ⟨p, hp, ?_⟩
    rw [waypointIndexFor, hw]
    simp
theorem ultraCompactToKeyframes_spec_witness :
    2 ≤ sampleUC.ballPath.length ∧
    ((ultraCompactToKeyframes sampleUC).keyframes.length = sampleUC.ballPath.length ∧
    (∀ i : ℕ, i < sampleUC.ballPath.length →
      ((ultraCompactToKeyframes sampleUC).keyframes.getD i defaultKF).t =
        round (((i : ℚ) / ((sampleUC.ballPath.length : ℚ) - 1)) *
          ((round (sampleUC.timeElapsed * (3/4) * 10) : ℤ) : ℚ))) ∧
    ((ultraCompactToKeyframes sampleUC).keyframes.getD 0 defaultKF).t = 0 ∧
    ((ultraCompactToKeyframes sampleUC).keyframes.getD 0 defaultKF).e =
      some sampleUC.events ∧
    (∀ i : ℕ, 1 ≤ i → i < sampleUC.ballPath.length →
      ((ultraCompactToKeyframes sampleUC).keyframes.getD i defaultKF).e = none) ∧
    (∀ p ∈ sampleUC.playerPaths, ∀ w, p.waypoints = [w] →
      ∀ i : ℕ, i < sampleUC.ballPath.length →
        ({ id := p.id, x := w.x, z := w.z, rot := w.rotation, anim := w.animation } :
          KPlayer) ∈ ((ultraCompactToKeyframes sampleUC).keyframes.getD i defaultKF).p)) :=
  ⟨by decide, ultraCompactToKeyframes_spec sampleUC (by decide)⟩

/-! ### Codec lemmas -/

theorem digitVal36_digitChar36 : ∀ d : ℕ, d < 36 → digitVal36 (digitChar36 d) = some d := by
  decide

theorem toBase36NatAux_ne_nil (f n : ℕ) (h : n < f) : toBase36NatAux f n ≠ [] := by
  cases f with
  | zero => omega
  | succ f =>
    rw [toBase36NatAux]
    split
    · simp
    · simp

theorem toBase36NatAux_irrel (n : ℕ) : ∀ f1 f2 : ℕ, n < f1 → n < f2 →
    toBase36NatAux f1 n = toBase36NatAux f2 n := by
  induction n using Nat.strong_induction_on with
  | _ n ih =>
    intro f1 f2 h1 h2
    cases f1 with
    | zero => omega
    | succ f1 =>
      cases f2 with
      | zero => omega
      | succ f2 =>
        rw [toBase36NatAux, toBase36NatAux]
        split
        · rfl
        · have hdiv : n / 36 < n := Nat.div_lt_self (by omega) (by omega)
          rw [ih (n / 36) hdiv f1 f2 (by omega) (by omega)]

theorem toBase36Nat_digits (c : Char) :
    ∀ (f n : ℕ), n < f → c ∈ toBase36NatAux f n → ∃ d, d < 36 ∧ c = digitChar36 d := by
  intro f
  induction f with
  | zero => omega
  | succ f ih =>
    intro n hn hc
    rw [toBase36NatAux] at hc
    split at hc
    · simp only [List.mem_singleton] at hc
      exact ⟨n, by omega, hc⟩
    · rcases List.mem_append.mp hc with h | h
      · have hdiv : n / 36 < n := Nat.div_lt_self (by omega) (by omega)
        exact ih (n / 36) (by omega) h
      · simp only [List.mem_singleton] at h
        exact ⟨n % 36, Nat.mod_lt _ (by omega), h⟩

theorem parseRun36_append (acc : ℕ) (xs ys : List Char)
    (h : ∀ c ∈ xs, (digitVal36 c).isSome) :
    parseRun36 acc (xs ++ ys) = parseRun36 (parseRun36 acc xs) ys := by
  induction xs generalizing acc with
  | nil => simp [parseRun36]
  | cons c rest ih =>
    have hc := h c (by simp)
    obtain ⟨d, hd⟩ := Option.isSome_iff_exists.mp hc
    rw [List.cons_append, parseRun36, hd, parseRun36, hd]
    exact ih _ (fun x hx => h x (by simp [hx]))

theorem parseRun36_toBase36NatAux (f : ℕ) :
    ∀ (n acc : ℕ), n < f →
      parseRun36 acc (toBase36NatAux f n) =
        acc * 36 ^ (toBase36NatAux f n).length + n := by
  induction f with
  | zero => omega
  | succ f ih =>
    intro n acc hn
    rw [toBase36NatAux]
    split
    · simp only [parseRun36, digitVal36_digitChar36 n (by omega)]
      simp [parseRun36]
    · have hdiv : n / 36 < n := Nat.div_lt_self (by omega) (by omega)
      have hvalid : ∀ c ∈ toBase36NatAux f (n / 36), (digitVal36 c).isSome := by
        intro c hc
        obtain ⟨d, hd, rfl⟩ := toBase36Nat_digits c f (n / 36) (by omega) hc
        rw [digitVal36_digitChar36 d hd]
        rfl
      rw [parseRun36_append _ _ _ hvalid, ih (n / 36) acc (by omega)]
      simp only [parseRun36, digitVal36_digitChar36 (n % 36) (Nat.mod_lt _ (by omega))]
      simp only [List.length_append, List.length_singleton]
      rw [pow_succ]
      have := Nat.div_add_mod n 36
      ring_nf
      omega

theorem parseNat36_toBase36Nat (n : ℕ) : parseNat36 (toBase36Nat n) = some n := by
  have hne := toBase36NatAux_ne_nil (n + 1) n (by omega)
  rw [toBase36Nat]
  cases hx : toBase36NatAux (n + 1) n with
  | nil => exact absurd hx hne
  | cons c rest =>
    have hc : c ∈ toBase36NatAux (n + 1) n := by rw [hx]; simp
    obtain ⟨d, hd, rfl⟩ := toBase36Nat_digits c (n + 1) n (by omega) hc
    have hrun : parseRun36 0 (toBase36NatAux (n + 1) n) = n := by
      have := parseRun36_toBase36NatAux (n + 1) n 0 (by omega)
      simpa using this
    rw [hx] at hrun
    simp only [parseRun36, digitVal36_digitChar36 d hd] at hrun
    norm_num at hrun
    rw [parseNat36]
    rw [digitVal36_digitChar36 d hd]
    show some (parseRun36 d rest) = some n
    rw [hrun]

theorem digitChar36_ne_signs : ∀ d : ℕ, d < 36 → digitChar36 d ≠ '-' ∧ digitChar36 d ≠ '+' := by
  decide

theorem jsParseInt36_not_sign (c : Char) (rest : List Char) (h1 : c ≠ '-') (h2 : c ≠ '+') :
    jsParseInt36 (c :: rest) = (parseNat36 (c :: rest)).map (fun n => (n : ℤ)) := by
  rw [jsParseInt36.eq_def]
  split
  · rename_i heq
    rw [List.cons.injEq] at heq
    exact absurd heq.1 h1
  · rename_i heq
    rw [List.cons.injEq] at heq
    exact absurd heq.1 h2
  · rfl

theorem jsParseInt36_toBase36Int (i : ℤ) : jsParseInt36 (toBase36Int i) = some i := by
  rw [toBase36Int]
  split
  · rename_i hneg
    show (parseNat36 (toBase36Nat i.natAbs)).map (fun n => -(n : ℤ)) = some i
    rw [parseNat36_toBase36Nat]
    show some (-(i.natAbs : ℤ)) = some i
    simp only [Option.some.injEq]
    omega
  · rename_i hpos
    have hne := toBase36NatAux_ne_nil (i.toNat + 1) i.toNat (by omega)
    rw [toBase36Nat]
    cases hx : toBase36NatAux (i.toNat + 1) i.toNat with
    | nil => exact absurd hx hne
    | cons c rest =>
      have hc : c ∈ toBase36NatAux (i.toNat + 1) i.toNat := by rw [hx]; simp
      obtain ⟨d, hd, rfl⟩ := toBase36Nat_digits c _ _ (by omega) hc
      have hsigns := digitChar36_ne_signs d hd
      have hparse : parseNat36 (toBase36NatAux (i.toNat + 1) i.toNat) = some i.toNat := by
        have := parseNat36_toBase36Nat i.toNat
        rw [toBase36Nat] at this
        exact this
      rw [hx] at hparse
      rw [jsParseInt36_not_sign _ _ hsigns.1 hsigns.2, hparse]
      show some ((i.toNat : ℤ)) = some i
      simp only [Option.some.injEq]
      omega

theorem jsSplitOn_ne_nil (sep : Char) (s : List Char) : jsSplitOn sep s ≠ [] := by
  cases s with
  | nil => simp [jsSplitOn]
  | cons c rest =>
    rw [jsSplitOn]
    cases h : jsSplitOn sep rest with
    | nil => simp
    | cons seg segs => by_cases hcs : c = sep <;> simp [hcs]

theorem jsSplitOn_no_sep (sep : Char) (s : List Char) (h : sep ∉ s) :
    jsSplitOn sep s = [s] := by
  induction s with
  | nil => rfl
  | cons c rest ih =>
    have hc : c ≠ sep := fun hc => h (by simp [hc])
    have hrest : sep ∉ rest := fun hr => h (by simp [hr])
    rw [jsSplitOn, ih hrest]
    simp [hc]

theorem jsSplitOn_append (sep : Char) (a b : List Char) (h : sep ∉ a) :
    jsSplitOn sep (a ++ sep :: b) = a :: jsSplitOn sep b := by
  induction a with
  | nil =>
    rw [List.nil_append, jsSplitOn]
    cases hb : jsSplitOn sep b with
    | nil => exact absurd hb (jsSplitOn_ne_nil sep b)
    | cons seg segs => simp
  | cons c rest ih =>
    have hc : c ≠ sep := fun hc => h (by simp [hc])
    have hrest : sep ∉ rest := fun hr => h (by simp [hr])
    rw [List.cons_append, jsSplitOn, ih hrest]
    simp [hc]

theorem jsSplitOn_jsJoin (sep : Char) (xs : List (List Char)) (hne : xs ≠ [])
    (h : ∀ x ∈ xs, sep ∉ x) :
    jsSplitOn sep (jsJoin sep xs) = xs := by
  induction xs with
  | nil => exact absurd rfl hne
  | cons x rest ih =>
    cases rest with
    | nil =>
      rw [jsJoin]
      exact jsSplitOn_no_sep sep x (h x (by simp))
    | cons y rest' =>
      rw [jsJoin, jsSplitOn_append sep x _ (h x (by simp))]
      rw [ih (List.cons_ne_nil y rest') (fun z hz => h z (by simp [hz]))]

theorem jsJoin_jsSplitOn (sep : Char) (s : List Char) :
    jsJoin sep (jsSplitOn sep s) = s := by
  induction s with
  | nil => rfl
  | cons c rest ih =>
    rw [jsSplitOn]
    cases hr : jsSplitOn sep rest with
    | nil => exact absurd hr (jsSplitOn_ne_nil sep rest)
    | cons seg segs =>
      rw [hr] at ih
      by_cases hc : c = sep
      · subst hc
        simp only [if_pos rfl]
        show ([] : List Char) ++ c :: jsJoin c (seg :: segs) = c :: rest
        rw [List.nil_append, ih]
      · simp only [if_neg hc]
        cases segs with
        | nil => exact congrArg (List.cons c) ih
        | cons s2 segs' =>
          show (c :: seg) ++ sep :: jsJoin sep (s2 :: segs') = c :: rest
          rw [List.cons_append]
          exact congrArg (List.cons c) ih

theorem mem_toBase36Int (i : ℤ) (c : Char) (h : c ∈ toBase36Int i) :
    c = '-' ∨ ∃ d, d < 36 ∧ c = digitChar36 d := by
  rw [toBase36Int] at h
  split at h
  · rcases List.mem_cons.mp h with h | h
    · exact Or.inl h
    · exact Or.inr (toBase36Nat_digits c _ _ (by omega) h)
  · exact Or.inr (toBase36Nat_digits c _ _ (by omega) h)

theorem digitChar36_not_special : ∀ d : ℕ, d < 36 →
    digitChar36 d ≠ ',' ∧ digitChar36 d ≠ '>' ∧ digitChar36 d ≠ ';' ∧
      digitChar36 d ≠ ':' ∧ digitChar36 d ≠ '|' := by
  decide

theorem base36_not_special (i : ℤ) :
    ',' ∉ toBase36Int i ∧ '>' ∉ toBase36Int i ∧ ';' ∉ toBase36Int i ∧
      ':' ∉ toBase36Int i ∧ '|' ∉ toBase36Int i := by
  refine ⟨?_, ?_, ?_, ?_, ?_⟩ <;>
    · intro h
      rcases mem_toBase36Int _ _ h with h | ⟨d, hd, h⟩
      · simp at h
      · have := digitChar36_not_special d hd
        simp [h] at this
        try tauto

theorem animCode_not_special (a : String) :
    animCode a ≠ ',' ∧ animCode a ≠ '>' ∧ animCode a ≠ ';' ∧
      animCode a ≠ ':' ∧ animCode a ≠ '|' := by
  unfold animCode
  split_ifs <;> refine ⟨?_, ?_, ?_, ?_, ?_⟩ <;> decide

theorem encodeWaypoint_not_special (w : Waypoint) :
    '>' ∉ encodeWaypoint w ∧ ';' ∉ encodeWaypoint w ∧ ':' ∉ encodeWaypoint w ∧
      '|' ∉ encodeWaypoint w := by
  have hx := base36_not_special (round (w.x * 10) + 10000)
  have hz := base36_not_special (round (w.z * 10) + 10000)
  have hr := base36_not_special (round (jsDeg w.rotation))
  have ha := animCode_not_special w.animation
  refine ⟨?_, ?_, ?_, ?_⟩ <;>
    · intro h
      simp only [encodeWaypoint, encodeCoord, encodeRotation, List.mem_append,
        List.mem_cons, List.mem_singleton] at h
      rcases h with h | h | (h | h | (h | h | h)) <;> exact absurd h (by tauto)
theorem decodeCoord_encodeCoord (x : ℚ) : decodeCoord (encodeCoord x) = some (qCoord x) := by
  rw [decodeCoord, encodeCoord, jsParseInt36_toBase36Int]
  simp only [Option.map_some', Option.some.injEq, qCoord]
  push_cast
  ring

theorem encodeRotation_eq (rad : ℚ) : encodeRotation rad = toBase36Int (round (jsDeg rad)) := rfl

theorem decodeRotation_encodeRotation (r : ℚ) :
    decodeRotation (encodeRotation r) = some (qRot r) := by
  rw [decodeRotation, encodeRotation_eq, jsParseInt36_toBase36Int]
  simp only [Option.map_some', Option.some.injEq, qRot]

theorem decodeWaypoint_encodeWaypoint (w : Waypoint) :
    decodeWaypoint (encodeWaypoint w) = some (quantWaypoint w) := by
  have hx : ',' ∉ encodeCoord w.x := (base36_not_special _).1
  have hz : ',' ∉ encodeCoord w.z := (base36_not_special _).1
  have hr : ',' ∉ encodeRotation w.rotation := (base36_not_special _).1
  have ha : animCode w.animation ≠ ',' := (animCode_not_special w.animation).1
  have hsplit : jsSplitOn ',' (encodeWaypoint w) =
      [encodeCoord w.x, encodeCoord w.z, encodeRotation w.rotation, [animCode w.animation]] := by
    rw [encodeWaypoint]
    rw [jsSplitOn_append ',' _ _ hx]
    rw [jsSplitOn_append ',' _ _ hz]
    rw [jsSplitOn_append ',' _ _ hr]
    rw [jsSplitOn_no_sep ',' _ (by simpa using fun h => ha h.symm)]
  unfold decodeWaypoint
  rw [hsplit]
  show (match decodeCoord (encodeCoord w.x), decodeCoord (encodeCoord w.z),
      decodeRotation (encodeRotation w.rotation) with
    | some xv, some zv, some rv =>
      some { x := xv, z := zv, rotation := rv,
             animation := animDecode [animCode w.animation] }
    | _, _, _ => none) = some (quantWaypoint w)
  rw [decodeCoord_encodeCoord, decodeCoord_encodeCoord, decodeRotation_encodeRotation]
  rfl

theorem mapM_round_trip {α β : Type} (dec : List Char → Option β) (enc : α → List Char)
    (q : α → β) (xs : List α) (h : ∀ a ∈ xs, dec (enc a) = some (q a)) :
    (xs.map enc).mapM dec = some (xs.map q) := by
  induction xs with
  | nil => rfl
  | cons a rest ih =>
    rw [List.map_cons, List.mapM_cons, h a (by simp)]
    rw [ih (fun b hb => h b (by simp [hb]))]
    rfl

theorem decodeBallPoint_encodeBallPoint (p : ℚ × ℚ × ℚ) :
    (match jsSplitOn ',' (encodeBallPoint p) with
      | x :: y :: z :: _ =>
        match decodeCoord x, decodeCoord y, decodeCoord z with
        | some xv, some yv, some zv => some (xv, yv, zv)
        | _, _, _ => none
      | _ => none) = some (qCoord p.1, qCoord p.2.1, qCoord p.2.2) := by
  have h1 : ',' ∉ encodeCoord p.1 := (base36_not_special _).1
  have h2 : ',' ∉ encodeCoord p.2.1 := (base36_not_special _).1
  have h3 : ',' ∉ encodeCoord p.2.2 := (base36_not_special _).1
  rw [encodeBallPoint, jsSplitOn_append ',' _ _ h1, jsSplitOn_append ',' _ _ h2,
    jsSplitOn_no_sep ',' _ h3]
  show (match decodeCoord (encodeCoord p.1), decodeCoord (encodeCoord p.2.1),
      decodeCoord (encodeCoord p.2.2) with
    | some xv, some yv, some zv => some (xv, yv, zv)
    | _, _, _ => none) = some (qCoord p.1, qCoord p.2.1, qCoord p.2.2)
  rw [decodeCoord_encodeCoord, decodeCoord_encodeCoord, decodeCoord_encodeCoord]

theorem decodeBallPath_encodeBallPath (points : List (ℚ × ℚ × ℚ)) (hne : points ≠ []) :
    decodeBallPath (encodeBallPath points) =
      some (points.map (fun p => (qCoord p.1, qCoord p.2.1, qCoord p.2.2))) := by
  have hnosep : ∀ x ∈ points.map encodeBallPoint, '>' ∉ x := by
    intro x hx
    obtain ⟨p, _, rfl⟩ := List.mem_map.mp hx
    intro hmem
    simp only [encodeBallPoint, List.mem_append, List.mem_cons] at hmem
    have g1 := (base36_not_special (round (p.1 * 10) + 10000)).2.1
    have g2 := (base36_not_special (round (p.2.1 * 10) + 10000)).2.1
    have g3 := (base36_not_special (round (p.2.2 * 10) + 10000)).2.1
    rcases hmem with h | h | h | h | h <;>
      first | exact g1 h | exact g2 h | exact g3 h | simp at h
  rw [decodeBallPath, encodeBallPath,
    jsSplitOn_jsJoin '>' _ (by simpa using hne) hnosep]
  exact mapM_round_trip _ encodeBallPoint _ points
    (fun p _ => decodeBallPoint_encodeBallPoint p)

theorem mem_jsJoin (sep c : Char) :
    ∀ xs : List (List Char), c ∈ jsJoin sep xs → c = sep ∨ ∃ x ∈ xs, c ∈ x := by
  intro xs
  induction xs with
  | nil => intro h; simp [jsJoin] at h
  | cons x rest ih =>
    intro h
    cases rest with
    | nil =>
      rw [jsJoin] at h
      exact Or.inr ⟨x, by simp, h⟩
    | cons y rest' =>
      rw [jsJoin] at h
      rcases List.mem_append.mp h with h | h
      · exact Or.inr ⟨x, by simp, h⟩
      · rcases List.mem_cons.mp h with h | h
        · exact Or.inl h
        · rcases ih h with h | ⟨z, hz, hcz⟩
          · exact Or.inl h
          · exact Or.inr ⟨z, by simp [hz], hcz⟩

theorem waypointJoin_no_colon (ws : List Waypoint) :
    ':' ∉ jsJoin '>' (ws.map encodeWaypoint) := by
  intro h
  rcases mem_jsJoin '>' ':' _ h with h | ⟨x, hx, hcx⟩
  · simp at h
  · obtain ⟨w, _, rfl⟩ := List.mem_map.mp hx
    exact (encodeWaypoint_not_special w).2.2.1 hcx

theorem waypointJoin_not_special (ws : List Waypoint) (δ : Char) (hδ : δ ≠ '>')
    (hw : ∀ w : Waypoint, δ ∉ encodeWaypoint w) :
    δ ∉ jsJoin '>' (ws.map encodeWaypoint) := by
  intro h
  rcases mem_jsJoin '>' δ _ h with h | ⟨x, hx, hcx⟩
  · exact hδ h
  · obtain ⟨w, _, rfl⟩ := List.mem_map.mp hx
    exact hw w hcx

theorem decodePlayerPath_encodePlayerPath (p : PlayerPath) (hw : p.waypoints ≠ [])
    (hid : ':' ∉ p.id.data) :
    decodePlayerPath (encodePlayerPath p) =
      some { id := p.id, waypoints := p.waypoints.map quantWaypoint } := by
  rw [decodePlayerPath, encodePlayerPath]
  rw [jsSplitOn_append ':' _ _ hid]
  rw [jsSplitOn_no_sep ':' _ (waypointJoin_no_colon p.waypoints)]
  show ((jsSplitOn '>' (jsJoin '>' (p.waypoints.map encodeWaypoint))).mapM
      decodeWaypoint).map
        (fun ws => ({ id := String.mk p.id.data, waypoints := ws } : PlayerPath)) =
    some ({ id := p.id, waypoints := p.waypoints.map quantWaypoint } : PlayerPath)
  rw [jsSplitOn_jsJoin '>' _ (by simpa using hw)
    (fun x hx => by
      obtain ⟨w, _, rfl⟩ := List.mem_map.mp hx
      exact fun hmem => (encodeWaypoint_not_special w).1 hmem)]
  rw [mapM_round_trip decodeWaypoint encodeWaypoint quantWaypoint p.waypoints
    (fun w _ => decodeWaypoint_encodeWaypoint w)]
  rfl

theorem outcomeCodeStr_canonical (o : String)
    (ho : o = "touchdown" ∨ o = "tackle" ∨ o = "incomplete" ∨ o = "interception" ∨
      o = "turnover") :
    ∃ c : Char, outcomeCodeStr o = [c] ∧ outcomeDecode c = some o ∧ c ≠ '|' ∧
      c ≠ '-' ∧ c ≠ '+' := by
  rcases ho with rfl | rfl | rfl | rfl | rfl
  · exact ⟨'T', rfl, rfl, by decide, by decide, by decide⟩
  · exact ⟨'K', rfl, rfl, by decide, by decide, by decide⟩
  · exact ⟨'I', rfl, rfl, by decide, by decide, by decide⟩
  · exact ⟨'X', rfl, rfl, by decide, by decide, by decide⟩
  · exact ⟨'F', rfl, rfl, by decide, by decide, by decide⟩

theorem base36_no_pipe (i : ℤ) : '|' ∉ toBase36Int i := (base36_not_special i).2.2.2.2

theorem encodeWaypoint_no_pipe (w : Waypoint) : '|' ∉ encodeWaypoint w :=
  (encodeWaypoint_not_special w).2.2.2

theorem encodeBallPoint_no_pipe (p : ℚ × ℚ × ℚ) : '|' ∉ encodeBallPoint p := by
  intro h
  simp only [encodeBallPoint, List.mem_append, List.mem_cons] at h
  rcases h with h | h | h | h | h <;>
    first
      | exact base36_no_pipe _ h
      | simp at h

theorem encodeBallPath_no_pipe (points : List (ℚ × ℚ × ℚ)) :
    '|' ∉ encodeBallPath points := by
  intro h
  rcases mem_jsJoin '>' '|' _ h with h | ⟨x, hx, hcx⟩
  · simp at h
  · obtain ⟨pt, _, rfl⟩ := List.mem_map.mp hx
    exact encodeBallPoint_no_pipe pt hcx

theorem encodePlayerPath_no_delim (p : PlayerPath) (δ : Char) (hδ1 : δ ∉ p.id.data)
    (hδ2 : δ ≠ ':') (hδ3 : δ ≠ '>') (hδ4 : ∀ w : Waypoint, δ ∉ encodeWaypoint w) :
    δ ∉ encodePlayerPath p := by
  intro h
  simp only [encodePlayerPath, List.mem_append, List.mem_cons] at h
  rcases h with h | h | h
  · exact hδ1 h
  · exact hδ2 h
  · exact waypointJoin_not_special p.waypoints δ hδ3 hδ4 h

theorem encodeWaypoint_no_semi (w : Waypoint) : ';' ∉ encodeWaypoint w :=
  (encodeWaypoint_not_special w).2.1

theorem playersJoin_no_pipe (paths : List PlayerPath)
    (hid : ∀ p ∈ paths, '|' ∉ p.id.data) :
    '|' ∉ jsJoin ';' (paths.map encodePlayerPath) := by
  intro h
  rcases mem_jsJoin ';' '|' _ h with h | ⟨x, hx, hcx⟩
  · simp at h
  · obtain ⟨p, hp, rfl⟩ := List.mem_map.mp hx
    exact encodePlayerPath_no_delim p '|' (hid p hp) (by decide) (by decide)
      encodeWaypoint_no_pipe hcx

theorem eventsJoin_no_pipe (events : List String) (hev : ∀ e ∈ events, '|' ∉ e.data) :
    '|' ∉ jsJoin ',' (events.map (·.data)) := by
  intro h
  rcases mem_jsJoin ',' '|' _ h with h | ⟨x, hx, hcx⟩
  · simp at h
  · obtain ⟨e, he, rfl⟩ := List.mem_map.mp hx
    exact hev e he hcx

theorem map_mk_data (l : List String) : (l.map (·.data)).map String.mk = l := by
  induction l with
  | nil => rfl
  | cons a t ih =>
    rw [List.map_cons, List.map_cons, ih]

theorem jsJoin_events_ne_nil (e : String) (rest : List String) (he : e.data ≠ []) :
    jsJoin ',' ((e :: rest).map (·.data)) ≠ [] := by
  cases rest with
  | nil => exact he
  | cons f rest' =>
    show e.data ++ ',' :: jsJoin ',' ((f :: rest').map (·.data)) ≠ []
    intro h
    rcases List.append_eq_nil.mp h with ⟨h1, h2⟩
    simp at h2

theorem decodeUltraCompact_encodeUltraCompact_raw (p : UltraCompactData)
    (hout : p.outcome = "touchdown" ∨ p.outcome = "tackle" ∨ p.outcome = "incomplete" ∨
      p.outcome = "interception" ∨ p.outcome = "turnover")
    (hball : p.ballPath ≠ [])
    (hpp : p.playerPaths ≠ [])
    (hwp : ∀ q ∈ p.playerPaths, q.waypoints ≠ [])
    (hidc : ∀ q ∈ p.playerPaths, ':' ∉ q.id.data)
    (hids : ∀ q ∈ p.playerPaths, ';' ∉ q.id.data)
    (hidp : ∀ q ∈ p.playerPaths, '|' ∉ q.id.data)
    (hevp : ∀ e ∈ p.events, '|' ∉ e.data) :
    decodeUltraCompact (encodeUltraCompact p) =
      some { outcome := p.outcome, summary := p.summary,
             timeElapsed := ((round (p.timeElapsed * 10) : ℤ) : ℚ) / 10,
             ballPath := p.ballPath.map (fun t => (qCoord t.1, qCoord t.2.1, qCoord t.2.2)),
             playerPaths := p.playerPaths.map
               (fun q => { id := q.id, waypoints := q.waypoints.map quantWaypoint }),
             events :=
               if (jsJoin ',' (p.events.map (fun s : String => s.data))).isEmpty then []
               else (jsSplitOn ','
                 (jsJoin ',' (p.events.map (fun s : String => s.data)))).map String.mk } := by
  obtain ⟨c, hcode, hdec, hcp, _, _⟩ := outcomeCodeStr_canonical p.outcome hout
  have hmetap : '|' ∉ outcomeCodeStr p.outcome ++ toBase36Int (round (p.timeElapsed * 10)) := by
    intro h
    rcases List.mem_append.mp h with h | h
    · rw [hcode] at h
      simp only [List.mem_singleton] at h
      exact hcp h.symm
    · exact base36_no_pipe _ h
  have hparts : jsSplitOn '|' (encodeUltraCompact p) =
      (outcomeCodeStr p.outcome ++ toBase36Int (round (p.timeElapsed * 10))) ::
        encodeBallPath p.ballPath ::
        jsJoin ';' (p.playerPaths.map encodePlayerPath) ::
        jsJoin ',' (p.events.map (·.data)) ::
        jsSplitOn '|' p.summary.data := by
    rw [encodeUltraCompact]
    rw [jsSplitOn_append '|' _ _ hmetap]
    rw [jsSplitOn_append '|' _ _ (encodeBallPath_no_pipe p.ballPath)]
    rw [jsSplitOn_append '|' _ _ (playersJoin_no_pipe p.playerPaths hidp)]
    rw [jsSplitOn_append '|' _ _ (eventsJoin_no_pipe p.events hevp)]
  have hplayers : jsSplitOn ';' (jsJoin ';' (p.playerPaths.map encodePlayerPath)) =
      p.playerPaths.map encodePlayerPath := by
    refine jsSplitOn_jsJoin ';' _ (by simpa using hpp) ?_
    intro x hx
    obtain ⟨q, hq, rfl⟩ := List.mem_map.mp hx
    exact encodePlayerPath_no_delim q ';' (hids q hq) (by decide) (by decide)
      encodeWaypoint_no_semi
  have hmapm : (p.playerPaths.map encodePlayerPath).mapM decodePlayerPath =
      some (p.playerPaths.map
        (fun q => { id := q.id, waypoints := q.waypoints.map quantWaypoint })) :=
    mapM_round_trip decodePlayerPath encodePlayerPath _ p.playerPaths
      (fun q hq => decodePlayerPath_encodePlayerPath q (hwp q hq) (hidc q hq))
  have hsummary : String.mk (jsJoin '|' (jsSplitOn '|' p.summary.data)) = p.summary := by
    rw [jsJoin_jsSplitOn]
  rw [decodeUltraCompact]
  rw [hparts, hcode]
  rw [if_neg (by simp)]
  show (match outcomeDecode c, jsParseInt36 (toBase36Int (round (p.timeElapsed * 10))) with
    | some outcome, some duration =>
      match decodeBallPath (encodeBallPath p.ballPath),
          (jsSplitOn ';' (jsJoin ';' (p.playerPaths.map encodePlayerPath))).mapM
            decodePlayerPath with
      | some ballPath, some playerPaths =>
        some ({ outcome := outcome,
                summary := String.mk (jsJoin '|' (jsSplitOn '|' p.summary.data)),
                timeElapsed := (duration : ℚ) / 10,
                ballPath := ballPath,
                playerPaths := playerPaths,
                events :=
                  if (jsJoin ','
                      (p.events.map (fun s : String => s.data))).isEmpty then []
                  else (jsSplitOn ','
                    (jsJoin ',' (p.events.map (fun s : String => s.data)))).map
                      String.mk } : UltraCompactData)
      | _, _ => none
    | _, _ => none) = _
  rw [hdec, jsParseInt36_toBase36Int, decodeBallPath_encodeBallPath p.ballPath hball,
    hplayers, hmapm, hsummary]

theorem eventsFieldRoundTrip (events : List String)
    (hevne : ∀ e ∈ events, e.data ≠ []) (hevc : ∀ e ∈ events, ',' ∉ e.data) :
    (if (jsJoin ',' (events.map (fun s : String => s.data))).isEmpty then []
     else (jsSplitOn ','
       (jsJoin ',' (events.map (fun s : String => s.data)))).map String.mk) = events := by
  cases events with
  | nil => simp [jsJoin]
  | cons e rest =>
    have hne := jsJoin_events_ne_nil e rest (hevne e (by simp))
    have hfalse : (jsJoin ',' ((e :: rest).map (fun s : String => s.data))).isEmpty =
        false := by
      cases h : jsJoin ',' ((e :: rest).map (fun s : String => s.data)) with
      | nil => exact absurd h hne
      | cons a b => rfl
    rw [hfalse]
    simp only [Bool.false_eq_true, if_false]
    rw [jsSplitOn_jsJoin ',' _ (by simp) (by
      intro x hx
      obtain ⟨ev, hmem, rfl⟩ := List.mem_map.mp hx
      exact hevc ev hmem)]
    rw [map_mk_data (e :: rest)]

theorem decodeUltraCompact_encodeUltraCompact (p : UltraCompactData)
    (hout : p.outcome = "touchdown" ∨ p.outcome = "tackle" ∨ p.outcome = "incomplete" ∨
      p.outcome = "interception" ∨ p.outcome = "turnover")
    (hball : p.ballPath ≠ [])
    (hpp : p.playerPaths ≠ [])
    (hwp : ∀ q ∈ p.playerPaths, q.waypoints ≠ [])
    (hidc : ∀ q ∈ p.playerPaths, ':' ∉ q.id.data)
    (hids : ∀ q ∈ p.playerPaths, ';' ∉ q.id.data)
    (hidp : ∀ q ∈ p.playerPaths, '|' ∉ q.id.data)
    (hevne : ∀ e ∈ p.events, e.data ≠ [])
    (hevc : ∀ e ∈ p.events, ',' ∉ e.data)
    (hevp : ∀ e ∈ p.events, '|' ∉ e.data) :
    decodeUltraCompact (encodeUltraCompact p) =
      some { outcome := p.outcome, summary := p.summary,
             timeElapsed := ((round (p.timeElapsed * 10) : ℤ) : ℚ) / 10,
             ballPath := p.ballPath.map (fun t => (qCoord t.1, qCoord t.2.1, qCoord t.2.2)),
             playerPaths := p.playerPaths.map
               (fun q => { id := q.id, waypoints := q.waypoints.map quantWaypoint }),
             events := p.events } := by
  rw [decodeUltraCompact_encodeUltraCompact_raw p hout hball hpp hwp hidc hids hidp hevp]
  rw [eventsFieldRoundTrip p.events hevne hevc]

theorem qCoord_close (x : ℚ) : |qCoord x - x| ≤ 1/10 := by
  have h := abs_sub_round (x * 10)
  have heq : qCoord x - x = ((round (x * 10) : ℚ) - x * 10) / 10 := by
    rw [qCoord]; ring
  rw [heq, abs_div, abs_sub_comm]
  rw [show |(10 : ℚ)| = 10 by norm_num]
  linarith

theorem jsDeg_congr (r : ℚ) : ∃ K : ℤ, jsDeg r = r * 180 / jsPI - 360 * (K : ℚ) := by
  rw [jsDeg, jsMod]
  split
  · exact ⟨jsTrunc (r * 180 / jsPI / 360) - 1, by push_cast; ring⟩
  · exact ⟨jsTrunc (r * 180 / jsPI / 360), by ring⟩

theorem qRot_close (r : ℚ) :
    ∃ m : ℤ, |qRot r - r - (m : ℚ) * (360 * jsPI / 180)| ≤ jsPI / 180 := by
  obtain ⟨K, hK⟩ := jsDeg_congr r
  refine ⟨-K, ?_⟩
  have hpi : (0 : ℚ) < jsPI := by rw [jsPI]; norm_num
  have h : |(round (jsDeg r) : ℚ) - jsDeg r| ≤ 1/2 := by
    rw [abs_sub_comm]; exact abs_sub_round (jsDeg r)
  have heq : qRot r - r - ((-K : ℤ) : ℚ) * (360 * jsPI / 180) =
      ((round (jsDeg r) : ℚ) - jsDeg r) * (jsPI / 180) := by
    rw [qRot, hK]
    have hne : jsPI ≠ 0 := ne_of_gt hpi
    field_simp
    ring
  rw [heq, abs_mul]
  rw [show |jsPI / 180| = jsPI / 180 from abs_of_pos (by positivity)]
  nlinarith [abs_nonneg ((round (jsDeg r) : ℚ) - jsDeg r)]

theorem getD_map_lt {α β : Type} (f : α → β) (xs : List α) (i : ℕ) (h : i < xs.length)
    (d : β) (d' : α) : (xs.map f).getD i d = f (xs.getD i d') := by
  rw [List.getD_eq_getElem _ _ (by simpa using h), List.getD_eq_getElem _ _ h,
    List.getElem_map]

/-- C7 (amended): for every waypoint-form play whose outcome is one of the five
canonical values, whose ball path, player list and per-player waypoint lists are
non-empty, whose player ids avoid the structural delimiters `:`/`;`/`|`, and
whose event strings are non-empty and avoid the delimiters `,`/`|`,
`decodeUltraCompact ∘ encodeUltraCompact` reproduces the outcome, summary and
event list exactly, every ball and player coordinate to within 0.1 absolute
tolerance (one-decimal quantization: the error is in fact ≤ 0.05), and every
player rotation to within 1 degree — i.e. `Math.PI/180` radians — modulo full
turns (the encoder normalizes rotations into [0°, 360°)).  The unamended claim,
quantifying over plays with arbitrary event strings, is refuted by
`ultraCompact_round_trip_cex`. -/
theorem ultraCompact_round_trip (p : UltraCompactData)
    (hout : p.outcome = "touchdown" ∨ p.outcome = "tackle" ∨ p.outcome = "incomplete" ∨
      p.outcome = "interception" ∨ p.outcome = "turnover")
    (hball : p.ballPath ≠ [])
    (hpp : p.playerPaths ≠ [])
    (hwp : ∀ q ∈ p.playerPaths, q.waypoints ≠ [])
    (hidc : ∀ q ∈ p.playerPaths, ':' ∉ q.id.data)
    (hids : ∀ q ∈ p.playerPaths, ';' ∉ q.id.data)
    (hidp : ∀ q ∈ p.playerPaths, '|' ∉ q.id.data)
    (hevne : ∀ e ∈ p.events, e.data ≠ [])
    (hevc : ∀ e ∈ p.events, ',' ∉ e.data)
    (hevp : ∀ e ∈ p.events, '|' ∉ e.data) :
    ∃ q : UltraCompactData,
      decodeUltraCompact (encodeUltraCompact p) = some q ∧
      q.outcome = p.outcome ∧ q.summary = p.summary ∧ q.events = p.events ∧
      q.ballPath.length = p.ballPath.length ∧
      (∀ i : ℕ, i < p.ballPath.length →
        |(q.ballPath.getD i (0, 0, 0)).1 - (p.ballPath.getD i (0, 0, 0)).1| ≤ 1/10 ∧
        |(q.ballPath.getD i (0, 0, 0)).2.1 - (p.ballPath.getD i (0, 0, 0)).2.1| ≤ 1/10 ∧
        |(q.ballPath.getD i (0, 0, 0)).2.2 - (p.ballPath.getD i (0, 0, 0)).2.2| ≤ 1/10) ∧
      q.playerPaths.length = p.playerPaths.length ∧
      (∀ j : ℕ, j < p.playerPaths.length →
        (q.playerPaths.getD j defaultPlayerPath).id =
          (p.playerPaths.getD j defaultPlayerPath).id ∧
        (q.playerPaths.getD j defaultPlayerPath).waypoints.length =
          (p.playerPaths.getD j defaultPlayerPath).waypoints.length ∧
        ∀ k : ℕ, k < (p.playerPaths.getD j defaultPlayerPath).waypoints.length →
          |((q.playerPaths.getD j defaultPlayerPath).waypoints.getD k defaultWaypoint).x -
            ((p.playerPaths.getD j defaultPlayerPath).waypoints.getD k defaultWaypoint).x|
              ≤ 1/10 ∧
          |((q.playerPaths.getD j defaultPlayerPath).waypoints.getD k defaultWaypoint).z -
            ((p.playerPaths.getD j defaultPlayerPath).waypoints.getD k defaultWaypoint).z|
              ≤ 1/10 ∧
          ∃ m : ℤ,
            |((q.playerPaths.getD j defaultPlayerPath).waypoints.getD k
                defaultWaypoint).rotation -
              ((p.playerPaths.getD j defaultPlayerPath).waypoints.getD k
                defaultWaypoint).rotation - (m : ℚ) * (360 * jsPI / 180)| ≤ jsPI / 180) := by
  refine ⟨_, decodeUltraCompact_encodeUltraCompact p hout hball hpp hwp hidc hids hidp
    hevne hevc hevp, rfl, rfl, rfl, by simp, ?_, by simp, ?_⟩
  · intro i hi
    rw [getD_map_lt _ _ i hi (0, 0, 0) (0, 0, 0)]
    exact ⟨qCoord_close _, qCoord_close _, qCoord_close _⟩
  · intro j hj
    rw [getD_map_lt _ _ j hj defaultPlayerPath defaultPlayerPath]
    refine ⟨rfl, by simp, ?_⟩
    intro k hk
    rw [getD_map_lt _ _ k hk defaultWaypoint defaultWaypoint]
    exact ⟨qCoord_close _, qCoord_close _, qRot_close _⟩
/-- C7 (counterexample): a waypoint-form play with canonical outcome `"tackle"`
whose single event string `"a,b"` contains the `,` delimiter does not round-trip:
the decoder splits it into the two events `["a", "b"] ≠ ["a,b"]`. -/
theorem ultraCompact_round_trip_cex :
    cexPlay.outcome = "tackle" ∧ cexPlay.events = ["a,b"] ∧
    (decodeUltraCompact (encodeUltraCompact cexPlay)).map (·.events) = some ["a", "b"] ∧
    (["a", "b"] : List String) ≠ ["a,b"] := by
  refine ⟨rfl, rfl, ?_, by decide⟩
  rw [decodeUltraCompact_encodeUltraCompact_raw cexPlay (by decide) (by decide)
    (by decide) (by decide) (by decide) (by decide) (by decide) (by decide)]
  decide
theorem ultraCompact_round_trip_witness :
    (samplePlay.outcome = "touchdown" ∨ samplePlay.outcome = "tackle" ∨
      samplePlay.outcome = "incomplete" ∨ samplePlay.outcome = "interception" ∨
      samplePlay.outcome = "turnover") ∧
    samplePlay.ballPath ≠ [] ∧
    samplePlay.playerPaths ≠ [] ∧
    (∀ q ∈ samplePlay.playerPaths, q.waypoints ≠ []) ∧
    (∀ q ∈ samplePlay.playerPaths, ':' ∉ q.id.data) ∧
    (∀ q ∈ samplePlay.playerPaths, ';' ∉ q.id.data) ∧
    (∀ q ∈ samplePlay.playerPaths, '|' ∉ q.id.data) ∧
    (∀ e ∈ samplePlay.events, e.data ≠ []) ∧
    (∀ e ∈ samplePlay.events, ',' ∉ e.data) ∧
    (∀ e ∈ samplePlay.events, '|' ∉ e.data) ∧
    (∃ q : UltraCompactData,
      decodeUltraCompact (encodeUltraCompact samplePlay) = some q ∧
      q.outcome = samplePlay.outcome ∧ q.summary = samplePlay.summary ∧
      q.events = samplePlay.events) :=
  ⟨by decide, by decide, by decide, by decide, by decide, by decide, by decide,
   by decide, by decide, by decide,
   match ultraCompact_round_trip samplePlay (by decide) (by decide) (by decide)
     (by decide) (by decide) (by decide) (by decide) (by decide) (by decide)
     (by decide) with
   | ⟨q, h1, h2, h3, h4, _⟩ => ⟨q, h1, h2, h3, h4⟩⟩
